import Mathlib

/-!
# Talk compilation (package `talks`)

A shallow embedding of `talks.go`: the `Slide` and `Talk` records, `Compile`,
`fileExists`, `renderMarkdown` and `PublishingInfo`, together with the Go
library routines whose results the code depends on (`fmt.Sprintf` with the
verbs `%03d` and `%s`, `strings.Replace`, `path.Join` / `path.Clean`).

Conventions.

* A Go `string` is a Lean `String`.  Every string operation of the program
  (comparison with `""`, concatenation, the search for `.yaml`, the scan for
  `/` and `.` in `path.Clean`) treats every code point other than the ASCII
  ones it looks for alike, so reading strings as sequences of code points
  changes nothing.
* The collaborators that the package only calls (`ioutil.ReadFile`,
  `yaml.Unmarshal`, `markdown.Render`, `os.Stat`) are the fields of a `World`;
  every theorem quantifies over all worlds.
  They are functions: rendering and the filesystem answer the same question
  the same way throughout one call of `Compile`.
* A Go call either returns or panics: `Outcome`.  The pair `(*Talk, error)`
  returned by `Compile`, of which exactly one component is non-nil, is an
  `Except String Talk` (the string is the error message).
* Pointers that the code dereferences or tests are options: `PublishedAt` is a
  `*time.Time` and `Slides` a `[]*Slide`, in which `yaml.Unmarshal` leaves a nil
  entry for a null item of the sequence.  The slides are freshly allocated by
  the deserializer and reachable only through the talk, so the in-place updates
  of the loop are read as building the updated list.
* `Compile` is instrumented with the list of paths it hands to `os.Stat`
  (`Run.statLog`), to state which existence checks a run makes.
-/

namespace Talks

/-! ## Go library routines -/

/-- Character of a decimal digit (`'0' + d`). -/
def digitChar (d : Nat) : Char := Char.ofNat (48 + d)

/-- Base-10 digits as `fmt` writes them: `for u >= 10` emit the last digit and
divide, then emit the leading digit.  The first argument bounds the number of
loop iterations; `u` itself is always enough. -/
def decimalDigits : Nat → Nat → List Char
  | 0, u => [digitChar u]
  | fuel + 1, u =>
    if u ≥ 10 then decimalDigits fuel (u / 10) ++ [digitChar (u % 10)]
    else [digitChar u]

/-- Value of `fmt.Sprintf("%03d", n)` for a non-negative `n`: the decimal digits
of `n`, with zeros written in front while there are fewer than three. -/
def sprintf03d (n : Nat) : String :=
  let ds := decimalDigits n n
  String.mk (List.replicate (3 - ds.length) '0' ++ ds)

/-- Scan of `strings.Replace` for a non-empty `old`: `skip` counts the characters
of a match that are still to be dropped. -/
def replaceScan (old new : List Char) : Nat → List Char → List Char
  | _, [] => []
  | skip + 1, _ :: cs => replaceScan old new skip cs
  | 0, c :: cs =>
    if old.isPrefixOf (c :: cs) then new ++ replaceScan old new (old.length - 1) cs
    else c :: replaceScan old new 0 cs

/-- Value of `strings.Replace(s, old, new, -1)`: every non-overlapping instance of
`old`, found from the left, is replaced by `new`.  With an empty `old` the
replacement is inserted before every code point and at the end. -/
def stringsReplaceAll (s old new : String) : String :=
  if old = new then s
  else if old.data = [] then String.mk (new.data ++ s.data.flatMap (fun c => c :: new.data))
  else String.mk (replaceScan old.data new.data 0 s.data)

/-- The `..` case of `path.Clean` when it can backtrack: `out.w--` and then
`for out.w > dotdot && out.index(out.w) != '/' { out.w-- }`.  Returns the new
`out.w`; the first argument bounds the iterations. -/
def cleanBacktrack (buf : List Char) (dotdot : Nat) : Nat → Nat → Nat
  | 0, w => w
  | fuel + 1, w =>
    if w > dotdot ∧ buf.getD w '/' ≠ '/' then cleanBacktrack buf dotdot fuel (w - 1) else w

/-- Main loop of `path.Clean` over the unread input.  The first Boolean is
`rooted`, the second is true inside the copy loop of a real path element; then
come the unread input, the written part of the buffer (`out.w` is its length)
and `dotdot`. -/
def cleanLoop (rooted : Bool) : Bool → List Char → List Char → Nat → List Char
  | _, [], out, _ => out
  | true, '/' :: rest, out, dotdot => cleanLoop rooted false rest out dotdot
  | true, c :: rest, out, dotdot => cleanLoop rooted true rest (out ++ [c]) dotdot
  | false, '/' :: rest, out, dotdot => cleanLoop rooted false rest out dotdot
  | false, ['.'], out, _ => out
  | false, '.' :: '/' :: rest, out, dotdot => cleanLoop rooted false rest out dotdot
  | false, ['.', '.'], out, dotdot =>
    if out.length > dotdot then
      out.take (cleanBacktrack out dotdot out.length (out.length - 1))
    else if !rooted then (if out.length > 0 then out ++ ['/'] else out) ++ ['.', '.']
    else out
  | false, '.' :: '.' :: '/' :: rest, out, dotdot =>
    if out.length > dotdot then
      cleanLoop rooted false rest
        (out.take (cleanBacktrack out dotdot out.length (out.length - 1))) dotdot
    else if !rooted then
      let out1 := (if out.length > 0 then out ++ ['/'] else out) ++ ['.', '.']
      cleanLoop rooted false rest out1 out1.length
    else cleanLoop rooted false rest out dotdot
  | false, c :: rest, out, dotdot =>
    let out1 := if (rooted && out.length != 1) || (!rooted && out.length != 0)
      then out ++ ['/'] else out
    cleanLoop rooted true rest (out1 ++ [c]) dotdot

/-- Value of `path.Clean(p)`. -/
def pathClean (p : String) : String :=
  match p.data with
  | [] => "."
  | '/' :: rest =>
    let out := cleanLoop true false rest ['/'] 1
    if out.length = 0 then "." else String.mk out
  | cs =>
    let out := cleanLoop false false cs [] 0
    if out.length = 0 then "." else String.mk out

/-- Value of `path.Join(elem...)`: the elements from the first non-empty one on,
separated by slashes, then cleaned; the empty string when all are empty. -/
def pathJoin (elem : List String) : String :=
  match elem.dropWhile (fun e => e == "") with
  | [] => ""
  | e :: es => pathClean (es.foldl (fun acc x => acc ++ "/" ++ x) e)

/-! ## Data model -/

/-- A `time.Time` value; the package only tests a pointer to one against nil
and hands it to `Format`. -/
structure Time where
  unixNano : Int
deriving DecidableEq

/-- The struct `Slide`. -/
structure Slide where
  Caption : String
  CaptionRaw : String
  ImagePath : String
  Number : String
deriving DecidableEq

/-- The struct `Talk`.  `PublishedAt` is a `*time.Time` (`none` is nil) and
`Slides` is a `[]*Slide` (an entry `none` is a nil pointer). -/
structure Talk where
  Draft : Bool
  Event : String
  Intro : String
  IntroRaw : String
  Location : String
  PublishedAt : Option Time
  Slides : List (Option Slide)
  Slug : String
  Subtitle : String
  Title : String
deriving DecidableEq

/-- How a Go call ends: it returns a value or it panics. -/
inductive Outcome (α : Type) where
  | returns (a : α)
  | panics (msg : String)
deriving DecidableEq

/-- Answer of `os.Stat` as `fileExists` reads it: no error, an error for which
`os.IsNotExist` holds, or any other error. -/
inductive StatResult where
  | found
  | notExist
  | fault (err : String)
deriving DecidableEq

/-- The collaborators of the package and the filesystem they see, taken as
unchanged for the duration of one call of `Compile`. -/
structure World where
  /-- Result of `ioutil.ReadFile`: the bytes or the error message. -/
  readFile : String → Except String (List UInt8)
  /-- Result of `yaml.Unmarshal` into a zero `Talk`: the talk or the error message. -/
  yamlUnmarshal : List UInt8 → Except String Talk
  /-- Result of `markdown.Render` under the three options of `renderMarkdown`. -/
  markdownRender : String → String
  /-- Result of `os.Stat`. -/
  stat : String → StatResult

/-- Result of one call of `Compile`, with the paths handed to `os.Stat`, in
call order. -/
structure Run where
  outcome : Outcome (Except String Talk)
  statLog : List String

/-! ## The package -/

/-- Message of the runtime panic raised by a field access through a nil pointer. -/
def nilDereference : String :=
  "runtime error: invalid memory address or nil pointer dereference"

/-- Go function `fileExists`. -/
def fileExists (w : World) (file : String) : Outcome Bool :=
  match w.stat file with
  | .found => .returns true
  | .notExist => .returns false
  | .fault err => .panics err

/-- Go function `renderMarkdown`. -/
def renderMarkdown (w : World) (content : String) : String :=
  w.markdownRender content

/-- Go method `PublishingInfo`; `format` is `Format("January 2, 2006")` and
`twitterInfo` the constant `sorg.TwitterInfo`.  A nil `PublishedAt` panics. -/
def PublishingInfo (format : Time → String) (twitterInfo : String) (t : Talk) :
    Outcome String :=
  match t.PublishedAt with
  | none => .panics nilDereference
  | some publishedAt =>
    .returns ("<p><strong>Talk</strong><br>" ++ t.Title ++ "</p>" ++
      "<p><strong>Published</strong><br>" ++ format publishedAt ++ "</p>" ++
      "<p><strong>Location</strong><br>" ++ t.Location ++ "</p>" ++
      "<p><strong>Event</strong><br>" ++ t.Event ++ "</p>" ++
      twitterInfo)

/-- The constant `talksAssetPath` of `Compile`. -/
def talksAssetPath : String := "/assets/talks"

/-- Name of the PNG candidate, `fmt.Sprintf("%s.%s.png", slug, number)`. -/
def pngName (slug number : String) : String := slug ++ "." ++ number ++ ".png"

/-- Name of the JPG candidate, `fmt.Sprintf("%s.%s.jpg", slug, number)`. -/
def jpgName (slug number : String) : String := slug ++ "." ++ number ++ ".jpg"

/-- Asset URL, `fmt.Sprintf("%s/%s/%s", talksAssetPath, slug, name)`. -/
def assetPath (slug name : String) : String :=
  talksAssetPath ++ "/" ++ slug ++ "/" ++ name

/-- Message of the error returned when a slide has no image. -/
def missingImageMessage (talksImageDir slug number : String) : String :=
  "Couldn't find any image asset for slide " ++ pngName slug number ++ " / " ++
    jpgName slug number ++ " at " ++ pathJoin [talksImageDir, slug]

/-- Path of the PNG candidate of a slide, as handed to `fileExists`. -/
def pngFile (talksImageDir slug number : String) : String :=
  pathJoin [talksImageDir, slug, pngName slug number]

/-- Path of the JPG candidate of a slide, as handed to `fileExists`. -/
def jpgFile (talksImageDir slug number : String) : String :=
  pathJoin [talksImageDir, slug, jpgName slug number]

/-- The slide as the loop body leaves it when the image `image` was found. -/
def filledSlide (w : World) (slug number image : String) (slide : Slide) : Slide :=
  { slide with
    Caption := renderMarkdown w slide.CaptionRaw
    Number := number
    ImagePath := assetPath slug image }

/-- The rest of the loop after an iteration that ran to its end: `slide1` is the
slide it filled in, `checked` the paths it handed to `os.Stat`, `later` how the
remaining iterations end. -/
def afterIteration (slide1 : Slide) (checked : List String)
    (later : Outcome (Except String (List (Option Slide))) × List String) :
    Outcome (Except String (List (Option Slide))) × List String :=
  match later with
  | (.returns (.ok done), log) => (.returns (.ok (some slide1 :: done)), checked ++ log)
  | (other, log) => (other, checked ++ log)

/-- The loop `for i, slide := range talk.Slides` of `Compile`, started at index
`i` on the slides not yet visited.  Returns how the loop ends (the slides as
left by the loop, the error returned from inside it, or a panic) and the paths
handed to `os.Stat`.  A nil slide panics at `slide.CaptionRaw`. -/
def compileSlides (w : World) (talksImageDir slug : String) :
    Nat → List (Option Slide) → Outcome (Except String (List (Option Slide))) × List String
  | _, [] => (.returns (.ok []), [])
  | _, none :: _ => (.panics nilDereference, [])
  | i, some slide :: rest =>
    let number := sprintf03d (i + 1)
    let png := pngFile talksImageDir slug number
    let jpg := jpgFile talksImageDir slug number
    match fileExists w png with
    | .panics err => (.panics err, [png])
    | .returns true =>
      afterIteration (filledSlide w slug number (pngName slug number) slide) [png]
        (compileSlides w talksImageDir slug (i + 1) rest)
    | .returns false =>
      match fileExists w jpg with
      | .panics err => (.panics err, [png, jpg])
      | .returns true =>
        afterIteration (filledSlide w slug number (jpgName slug number) slide) [png, jpg]
          (compileSlides w talksImageDir slug (i + 1) rest)
      | .returns false =>
        (.returns (.error (missingImageMessage talksImageDir slug number)), [png, jpg])

/-- Go function `Compile`. -/
def Compile (w : World) (contentDir dir name : String) (draft : Bool) : Run :=
  let inPath := pathJoin [dir, name]
  match w.readFile inPath with
  | .error err => ⟨.returns (.error err), []⟩
  | .ok raw =>
    match w.yamlUnmarshal raw with
    | .error err => ⟨.returns (.error err), []⟩
    | .ok talk0 =>
      let talk : Talk := { talk0 with
        Draft := draft
        Intro := renderMarkdown w talk0.IntroRaw
        Slug := stringsReplaceAll name ".yaml" "" }
      if talk.Event = "" then
        ⟨.returns (.error ("No event for talk: " ++ inPath)), []⟩
      else if talk.Intro = "" then
        ⟨.returns (.error ("No intro for talk: " ++ inPath)), []⟩
      else if talk.Location = "" then
        ⟨.returns (.error ("No location for talk: " ++ inPath)), []⟩
      else if talk.Title = "" then
        ⟨.returns (.error ("No title for talk: " ++ inPath)), []⟩
      else if talk.PublishedAt = none then
        ⟨.returns (.error ("No publish date for talk: " ++ inPath)), []⟩
      else
        let talksImageDir := pathJoin [contentDir, "images", "talks"]
        match compileSlides w talksImageDir talk.Slug 0 talk.Slides with
        | (.returns (.ok slides), log) => ⟨.returns (.ok { talk with Slides := slides }), log⟩
        | (.returns (.error err), log) => ⟨.returns (.error err), log⟩
        | (.panics msg, log) => ⟨.panics msg, log⟩

/-! ## Reading the specification's words -/

/-- Value of a decimal digit character. -/
def digitValue (c : Char) : Nat := c.toNat - 48

/-- Numeric value of a list of digit characters, most significant first. -/
def digitsValue (l : List Char) : Nat := l.foldl (fun acc c => 10 * acc + digitValue c) 0

/-- A string read as a decimal numeral: defined when the string is non-empty
and all of its characters are decimal digits. -/
def readDecimal (s : String) : Option Nat :=
  if s.data ≠ [] ∧ s.data.all Char.isDigit = true then some (digitsValue s.data) else none

/-- A file name with its extension removed, the extension being the suffix that
starts at the last dot of the last slash-separated element (as `path.Ext`
defines it); a name without such a dot is left as it is. -/
def trimExtension (name : String) : String :=
  let r := name.data.reverse
  match r.dropWhile (fun c => c != '.' && c != '/') with
  | '.' :: rest => String.mk rest.reverse
  | _ => name

/-- Scan of a path made of plain elements separated by single slashes: every
element is non-empty and does not start with a dot, and the path does not end
in a slash.  The first argument is true at the start of an element. -/
def plainFrom : Bool → List Char → Bool
  | atStart, [] => !atStart
  | true, c :: cs => c != '/' && c != '.' && plainFrom false cs
  | false, c :: cs => if c = '/' then plainFrom true cs else plainFrom false cs

/-- A path element that `path.Clean` copies as it is: it is not empty, holds no
slash and does not start with a dot. -/
def plainSegment (name : String) : Bool :=
  plainFrom true name.data && !name.data.contains '/'

/-- A path of plain elements separated by single slashes, with or without a
leading slash. -/
def plainPath (p : String) : Bool :=
  match p.data with
  | '/' :: cs => plainFrom true cs
  | cs => plainFrom true cs

/-! ## Notions used in the proofs -/

/-- The buffer after the separator that `path.Clean` writes before a real path
element. -/
def withSeparator (rooted : Bool) (out : List Char) : List Char :=
  if (rooted && out.length != 1) || (!rooted && out.length != 0) then out ++ ['/'] else out

/-- The buffer holds a path element already, so that the next element gets a
separator. -/
def SeparatorDue (rooted : Bool) (out : List Char) : Prop :=
  (rooted = true → 2 ≤ out.length) ∧ 1 ≤ out.length

/-- What a successful run of the loop says about position `k`: the input entry is
a slide `s`, and the output entry is `s` filled in with the PNG candidate when
that is found, with the JPG candidate when the PNG is reported absent and the
JPG is found. -/
def FilledAt (w : World) (d slug : String) (l out : List (Option Slide)) (i k : Nat) : Prop :=
  ∃ s, l[k]? = some (some s) ∧
    ((w.stat (pngFile d slug (sprintf03d (i + k + 1))) = .found ∧
        out[k]? = some (some (filledSlide w slug (sprintf03d (i + k + 1))
          (pngName slug (sprintf03d (i + k + 1))) s))) ∨
      (w.stat (pngFile d slug (sprintf03d (i + k + 1))) = .notExist ∧
        w.stat (jpgFile d slug (sprintf03d (i + k + 1))) = .found ∧
        out[k]? = some (some (filledSlide w slug (sprintf03d (i + k + 1))
          (jpgName slug (sprintf03d (i + k + 1))) s))))

/-- Position `k` of the input can be filled in: the entry is a slide and its
PNG candidate is found, or reported absent with the JPG candidate found. -/
def ImageAt (w : World) (d slug : String) (l : List (Option Slide)) (i k : Nat) : Prop :=
  (∃ s, l[k]? = some (some s)) ∧
    (w.stat (pngFile d slug (sprintf03d (i + k + 1))) = .found ∨
      (w.stat (pngFile d slug (sprintf03d (i + k + 1))) = .notExist ∧
        w.stat (jpgFile d slug (sprintf03d (i + k + 1))) = .found))

/-- The talk `Compile` returns when the loop leaves the slides `slides`. -/
def compiledTalk (w : World) (name : String) (draft : Bool) (talk0 : Talk)
    (slides : List (Option Slide)) : Talk :=
  { talk0 with
    Draft := draft
    Intro := renderMarkdown w talk0.IntroRaw
    Slug := stringsReplaceAll name ".yaml" ""
    Slides := slides }

/-- How `Compile` ends once the required fields have passed validation. -/
def afterValidation (w : World) (name : String) (draft : Bool) (talk0 : Talk)
    (loop : Outcome (Except String (List (Option Slide))) × List String) : Run :=
  match loop with
  | (.returns (.ok slides), log) => ⟨.returns (.ok (compiledTalk w name draft talk0 slides)), log⟩
  | (.returns (.error err), log) => ⟨.returns (.error err), log⟩
  | (.panics msg, log) => ⟨.panics msg, log⟩

/-! ## Concrete runs: the scenario of the specification and variations -/

/-- The talk deserialized from `launch.yaml`. -/
def launchTalk : Talk :=
  { Draft := false, Event := "RubyConf", Intro := "", IntroRaw := "Hello",
    Location := "Austin", PublishedAt := some ⟨1425168000000000000⟩,
    Slides := [some { Caption := "", CaptionRaw := "Intro slide", ImagePath := "", Number := "" }],
    Slug := "", Subtitle := "", Title := "Launch Talk" }

/-- A world holding `talks/launch.yaml` and the image `launch.001.jpg` only. -/
def launchWorld : World :=
  { readFile := fun p => if p = "talks/launch.yaml" then .ok [] else .error "no such file"
    yamlUnmarshal := fun _ => .ok launchTalk
    markdownRender := fun s => if s = "" then "" else "<p>" ++ s ++ "</p>"
    stat := fun p =>
      if p = "content/images/talks/launch/launch.001.jpg" then .found else .notExist }

/-- A world in which every read succeeds, deserialization yields `talk`,
rendering wraps non-empty text in a paragraph, and `os.Stat` answers by `stat`. -/
def worldOf (talk : Talk) (stat : String → StatResult) : World :=
  { readFile := fun _ => .ok []
    yamlUnmarshal := fun _ => .ok talk
    markdownRender := fun s => if s = "" then "" else "<p>" ++ s ++ "</p>"
    stat := stat }

/-- The slide of `launch.yaml` compiled where only its JPG candidate exists. -/
def launchSlide : Slide :=
  { Caption := "<p>Intro slide</p>", CaptionRaw := "Intro slide",
    ImagePath := "/assets/talks/launch/launch.001.jpg", Number := "001" }

/-- The talk `Compile` returns for `launch.yaml` in `launchWorld` with `draft`
set. -/
def launchResult : Talk :=
  { launchTalk with
    Draft := true
    Intro := "<p>Hello</p>"
    Slug := "launch"
    Slides := [some launchSlide] }

/-- The slide of `launch.yaml` compiled where both of its candidates exist. -/
def launchSlidePng : Slide :=
  { Caption := "<p>Intro slide</p>", CaptionRaw := "Intro slide",
    ImagePath := "/assets/talks/launch/launch.001.png", Number := "001" }

/-- A deserialized talk without event, title and publication date. -/
def untitledTalk : Talk :=
  { launchTalk with Event := "", Title := "", PublishedAt := none }

/-- A deserialized talk with every required field and no slide. -/
def plainTalk : Talk := { launchTalk with Slides := [] }

/-- A deserialized talk with every required field whose only slide entry is
null. -/
def nullSlideTalk : Talk := { launchTalk with Slides := [none] }

/-- A deserialized talk with every required field and a thousand slides. -/
def thousandTalk : Talk :=
  { launchTalk with
    Slides := List.replicate 1000
      (some { Caption := "", CaptionRaw := "Slide", ImagePath := "", Number := "" }) }

/-- A filesystem on which `os.Stat` fails on `launch.001.jpg` with an error other
than not-found, and reports every other path absent. -/
def deniedStat (p : String) : StatResult :=
  if p = "content/images/talks/launch/launch.001.jpg" then .fault "permission denied"
  else .notExist

/-! ## Lemmas on the library routines -/

theorem digitChar_toNat {d : Nat} (h : d < 10) : (digitChar d).toNat = 48 + d := by
  interval_cases d <;> rfl

theorem digitChar_isDigit {d : Nat} (h : d < 10) : (digitChar d).isDigit = true := by
  interval_cases d <;> rfl

theorem digitValue_digitChar {d : Nat} (h : d < 10) : digitValue (digitChar d) = d := by
  simp [digitValue, digitChar_toNat h]

theorem digitsValue_append_single (l : List Char) (c : Char) :
    digitsValue (l ++ [c]) = 10 * digitsValue l + digitValue c := by
  simp [digitsValue, List.foldl_append]

theorem decimalDigits_value : ∀ (fuel u : Nat), u ≤ fuel → digitsValue (decimalDigits fuel u) = u
  | 0, u, h => by
    have hu : u = 0 := by omega
    subst hu
    rfl
  | fuel + 1, u, h => by
    unfold decimalDigits
    split
    · rename_i h10
      rw [digitsValue_append_single, decimalDigits_value fuel (u / 10) (by omega),
        digitValue_digitChar (Nat.mod_lt _ (by norm_num))]
      omega
    · rename_i h10
      have hu : u < 10 := by omega
      simp [digitsValue, digitValue_digitChar hu]

theorem decimalDigits_allDigits : ∀ (fuel u : Nat), u ≤ fuel →
    ∀ c ∈ decimalDigits fuel u, c.isDigit = true
  | 0, u, h => by
    have hu : u = 0 := by omega
    subst hu
    intro c hc
    simp [decimalDigits] at hc
    subst hc
    rfl
  | fuel + 1, u, h => by
    unfold decimalDigits
    split
    · intro c hc
      rcases List.mem_append.mp hc with hc | hc
      · exact decimalDigits_allDigits fuel (u / 10) (by omega) c hc
      · simp at hc
        subst hc
        exact digitChar_isDigit (Nat.mod_lt _ (by norm_num))
    · rename_i h10
      intro c hc
      simp at hc
      subst hc
      exact digitChar_isDigit (by omega)

theorem decimalDigits_length_pos (fuel u : Nat) : 0 < (decimalDigits fuel u).length := by
  cases fuel with
  | zero => simp [decimalDigits]
  | succ f =>
    unfold decimalDigits
    split <;> simp

theorem decimalDigits_length_le_three : ∀ (fuel u : Nat), u < 1000 →
    (decimalDigits fuel u).length ≤ 3 := by
  intro fuel u hu
  match fuel with
  | 0 => simp [decimalDigits]
  | 1 =>
    simp only [decimalDigits]
    split <;> simp
  | 2 =>
    simp only [decimalDigits]
    split
    · split <;> simp
    · simp
  | f + 3 =>
    simp only [decimalDigits]
    split
    · split
      · split
        · omega
        · simp
      · simp
    · simp

theorem decimalDigits_length_ge_four (fuel u : Nat) (hf : u ≤ fuel) (hu : 1000 ≤ u) :
    4 ≤ (decimalDigits fuel u).length := by
  obtain ⟨f, rfl⟩ : ∃ f, fuel = f + 3 := ⟨fuel - 3, by omega⟩
  have h1 : u ≥ 10 := by omega
  have h2 : u / 10 ≥ 10 := by omega
  have h3 : u / 10 / 10 ≥ 10 := by omega
  have hpos := decimalDigits_length_pos f (u / 10 / 10 / 10)
  simp only [decimalDigits, h1, h2, h3, if_true, List.length_append, List.length_singleton]
  omega

theorem sprintf03d_data (n : Nat) :
    (sprintf03d n).data =
      List.replicate (3 - (decimalDigits n n).length) '0' ++ decimalDigits n n := rfl

theorem sprintf03d_length_of_lt {n : Nat} (h : n < 1000) : (sprintf03d n).length = 3 := by
  have h3 := decimalDigits_length_le_three n n h
  show (sprintf03d n).data.length = 3
  rw [sprintf03d_data, List.length_append, List.length_replicate]
  omega

theorem sprintf03d_length_of_ge {n : Nat} (h : 1000 ≤ n) : 4 ≤ (sprintf03d n).length := by
  have h4 := decimalDigits_length_ge_four n n le_rfl h
  show 4 ≤ (sprintf03d n).data.length
  rw [sprintf03d_data, List.length_append, List.length_replicate]
  omega

theorem sprintf03d_length_ge_three (n : Nat) : 3 ≤ (sprintf03d n).length := by
  show 3 ≤ (sprintf03d n).data.length
  rw [sprintf03d_data, List.length_append, List.length_replicate]
  omega

theorem sprintf03d_allDigits (n : Nat) : ∀ c ∈ (sprintf03d n).data, c.isDigit = true := by
  intro c hc
  rw [sprintf03d_data] at hc
  rcases List.mem_append.mp hc with hc | hc
  · rw [List.eq_of_mem_replicate hc]
    rfl
  · exact decimalDigits_allDigits n n le_rfl c hc

theorem digitsValue_replicate_zero (k : Nat) (l : List Char) :
    digitsValue (List.replicate k '0' ++ l) = digitsValue l := by
  induction k with
  | zero => simp
  | succ k ih =>
    have h0 : digitValue '0' = 0 := rfl
    simp only [digitsValue, List.replicate_succ, List.cons_append, List.foldl_cons,
      h0] at ih ⊢
    exact ih

theorem readDecimal_sprintf03d (n : Nat) : readDecimal (sprintf03d n) = some n := by
  have hne : (sprintf03d n).data ≠ [] := by
    intro h
    have := sprintf03d_length_ge_three n
    have hl : (sprintf03d n).length = 0 := by
      show (sprintf03d n).data.length = 0
      rw [h]
      rfl
    omega
  have hall : (sprintf03d n).data.all Char.isDigit = true :=
    List.all_eq_true.mpr (sprintf03d_allDigits n)
  unfold readDecimal
  rw [if_pos ⟨hne, hall⟩]
  have hv : digitsValue (sprintf03d n).data = n := by
    rw [sprintf03d_data, digitsValue_replicate_zero, decimalDigits_value n n le_rfl]
  exact congrArg some hv

theorem sprintf03d_injective {m n : Nat} (h : sprintf03d m = sprintf03d n) : m = n := by
  have hm := readDecimal_sprintf03d m
  rw [h, readDecimal_sprintf03d n] at hm
  exact (Option.some.inj hm).symm

theorem replaceScan_yaml_suffix : ∀ (base : List Char), '.' ∉ base →
    replaceScan ".yaml".data [] 0 (base ++ ".yaml".data) = base
  | [], _ => by decide
  | c :: cs, h => by
    have hc : c ≠ '.' := fun e => h (by simp [e])
    have hcs : '.' ∉ cs := fun e => h (by simp [e])
    have hp : List.isPrefixOf ".yaml".data (c :: (cs ++ ".yaml".data)) = false := by
      show List.isPrefixOf ['.', 'y', 'a', 'm', 'l'] (c :: (cs ++ ".yaml".data)) = false
      simp [List.isPrefixOf, Ne.symm hc]
    show replaceScan ".yaml".data [] 0 (c :: (cs ++ ".yaml".data)) = c :: cs
    rw [replaceScan, hp]
    simp [replaceScan_yaml_suffix cs hcs]

theorem stringsReplaceAll_yaml_suffix (base : String) (h : '.' ∉ base.data) :
    stringsReplaceAll (base ++ ".yaml") ".yaml" "" = base := by
  have hne : (".yaml" : String) ≠ "" := by decide
  have hd : (".yaml" : String).data ≠ [] := by decide
  unfold stringsReplaceAll
  rw [if_neg hne, if_neg hd]
  show String.mk (replaceScan ".yaml".data [] 0 (base.data ++ ".yaml".data)) = base
  rw [replaceScan_yaml_suffix base.data h]

theorem trimExtension_yaml_suffix (base : String) : trimExtension (base ++ ".yaml") = base := by
  unfold trimExtension
  have hr : (base ++ ".yaml").data.reverse = 'l' :: 'm' :: 'a' :: 'y' :: '.' :: base.data.reverse := by
    show (base.data ++ ['.', 'y', 'a', 'm', 'l']).reverse = _
    simp
  simp only [hr]
  simp [List.dropWhile]

/-- The bound on the iterations of `cleanBacktrack` is enough: started below it,
the loop ends because its condition fails. -/
theorem cleanBacktrack_stops (buf : List Char) (dotdot : Nat) : ∀ (fuel w : Nat), w < fuel →
    ¬ (cleanBacktrack buf dotdot fuel w > dotdot ∧
      buf.getD (cleanBacktrack buf dotdot fuel w) '/' ≠ '/')
  | 0, w, h => absurd h (Nat.not_lt_zero w)
  | fuel + 1, w, h => by
    unfold cleanBacktrack
    split
    · rename_i hc
      exact cleanBacktrack_stops buf dotdot fuel (w - 1) (by omega)
    · rename_i hc
      exact hc

/-- The joins and cleanings of the scenario, and some with dots, empty elements
and doubled slashes. -/
theorem pathJoin_examples :
    pathJoin ["./talks", "launch.yaml"] = "talks/launch.yaml" ∧
    pathJoin ["./content", "images", "talks"] = "content/images/talks" ∧
    pathJoin ["content/images/talks", "launch", "launch.001.png"] =
      "content/images/talks/launch/launch.001.png" ∧
    pathJoin ["/srv//site/", "", "a/../b/.", "x.yaml"] = "/srv/site/b/x.yaml" ∧
    pathJoin ["..", "a", "..", "..", "b"] = "../../b" ∧
    pathJoin ["/..", ".."] = "/" ∧
    pathJoin ["", ""] = "" ∧ pathJoin [".", ""] = "." := by
  decide

/-! ## `path.Join` on plain paths -/

theorem cleanLoop_default (rooted : Bool) (c : Char) (rest out : List Char) (dd : Nat)
    (h1 : c ≠ '/') (h2 : c ≠ '.') :
    cleanLoop rooted false (c :: rest) out dd =
      cleanLoop rooted true rest (withSeparator rooted out ++ [c]) dd := by
  rw [cleanLoop]
  · rfl
  · exact h1
  all_goals (intros; simp_all)

theorem cleanLoop_copy_char (rooted : Bool) (c : Char) (rest out : List Char) (dd : Nat)
    (h1 : c ≠ '/') :
    cleanLoop rooted true (c :: rest) out dd = cleanLoop rooted true rest (out ++ [c]) dd := by
  rw [cleanLoop]
  all_goals (intros; simp_all)

theorem cleanLoop_copy_slash (rooted : Bool) (rest out : List Char) (dd : Nat) :
    cleanLoop rooted true ('/' :: rest) out dd = cleanLoop rooted false rest out dd := by
  rw [cleanLoop]

theorem withSeparator_length_le (rooted : Bool) (out : List Char) :
    out.length ≤ (withSeparator rooted out).length := by
  unfold withSeparator
  split <;> simp

theorem withSeparator_of_due {rooted : Bool} {out : List Char} (h : SeparatorDue rooted out) :
    withSeparator rooted out = out ++ ['/'] := by
  unfold withSeparator
  obtain ⟨h2, h1⟩ := h
  cases rooted
  · have : out.length ≠ 0 := by omega
    simp [this]
  · have := h2 rfl
    have : out.length ≠ 1 := by omega
    simp [this]

theorem separatorDue_append {rooted : Bool} {out : List Char} (h : SeparatorDue rooted out)
    (c : Char) : SeparatorDue rooted (out ++ [c]) := by
  obtain ⟨h2, h1⟩ := h
  refine ⟨fun hr => ?_, ?_⟩
  · have := h2 hr
    simp only [List.length_append, List.length_singleton]
    omega
  · simp

theorem separatorDue_start {rooted : Bool} {out : List Char}
    (h : rooted = true → 1 ≤ out.length) (c : Char) :
    SeparatorDue rooted (withSeparator rooted out ++ [c]) := by
  have hle := withSeparator_length_le rooted out
  refine ⟨fun hr => ?_, ?_⟩
  · have := h hr
    simp only [List.length_append, List.length_singleton]
    omega
  · simp

/-- On the rest of a path of plain elements, `path.Clean` copies what it reads:
at the start of an element after writing the separator that is due, inside an
element as it is. -/
theorem cleanLoop_plain (rooted : Bool) : ∀ (cs : List Char) (copying : Bool) (out : List Char)
    (dd : Nat), plainFrom (!copying) cs = true →
    (copying = true → SeparatorDue rooted out) →
    (copying = false → rooted = true → 1 ≤ out.length) →
    cleanLoop rooted copying cs out dd =
      (if copying then out else withSeparator rooted out) ++ cs
  | [], true, out, dd, _, _, _ => by simp [cleanLoop]
  | [], false, out, dd, h, _, _ => by simp [plainFrom] at h
  | c :: cs, false, out, dd, h, _, hstart => by
    simp only [Bool.not_false, plainFrom, Bool.and_eq_true, bne_iff_ne, ne_eq] at h
    obtain ⟨⟨hc, hdot⟩, hrest⟩ := h
    rw [cleanLoop_default rooted c cs out dd hc hdot,
      cleanLoop_plain rooted cs true _ dd (by simpa using hrest)
        (fun _ => separatorDue_start (hstart rfl) c) (by simp)]
    simp
  | c :: cs, true, out, dd, h, hdue, _ => by
    simp only [Bool.not_true, plainFrom] at h
    by_cases hc : c = '/'
    · subst hc
      simp only [if_true] at h
      rw [cleanLoop_copy_slash, cleanLoop_plain rooted cs false out dd (by simpa using h)
        (by simp) (fun _ hr => by have := (hdue rfl).1 hr; omega)]
      simp [withSeparator_of_due (hdue rfl)]
    · simp only [hc, if_false] at h
      rw [cleanLoop_copy_char rooted c cs out dd hc,
        cleanLoop_plain rooted cs true _ dd (by simpa using h)
          (fun _ => separatorDue_append (hdue rfl) c) (by simp)]
      simp

theorem plainFrom_slash : ∀ (a b : List Char) (atStart : Bool), plainFrom atStart a = true →
    plainFrom true b = true → plainFrom atStart (a ++ '/' :: b) = true
  | [], b, true, h, _ => by simp [plainFrom] at h
  | [], b, false, _, hb => by simpa [plainFrom] using hb
  | c :: a, b, true, h, hb => by
    simp only [plainFrom, Bool.and_eq_true] at h
    simp only [List.cons_append, plainFrom, Bool.and_eq_true]
    exact ⟨h.1, plainFrom_slash a b false h.2 hb⟩
  | c :: a, b, false, h, hb => by
    simp only [plainFrom] at h
    simp only [List.cons_append, plainFrom]
    split
    · rename_i hc
      rw [if_pos hc] at h
      exact plainFrom_slash a b true h hb
    · rename_i hc
      rw [if_neg hc] at h
      exact plainFrom_slash a b false h hb

theorem plainFrom_extend : ∀ (a b : List Char) (atStart : Bool), plainFrom atStart a = true →
    '/' ∉ b → plainFrom atStart (a ++ b) = true
  | [], b, true, h, _ => by simp [plainFrom] at h
  | [], [], false, _, _ => rfl
  | [], c :: b, false, _, hb => by
    have hc : c ≠ '/' := fun e => hb (by simp [e])
    have hb' : '/' ∉ b := fun e => hb (by simp [e])
    simp only [List.nil_append, plainFrom, if_neg hc]
    exact plainFrom_extend [] b false rfl hb'
  | c :: a, b, true, h, hb => by
    simp only [plainFrom, Bool.and_eq_true] at h
    simp only [List.cons_append, plainFrom, Bool.and_eq_true]
    exact ⟨h.1, plainFrom_extend a b false h.2 hb⟩
  | c :: a, b, false, h, hb => by
    simp only [plainFrom] at h
    simp only [List.cons_append, plainFrom]
    split
    · rename_i hc
      rw [if_pos hc] at h
      exact plainFrom_extend a b true h hb
    · rename_i hc
      rw [if_neg hc] at h
      exact plainFrom_extend a b false h hb

theorem pathClean_plain {p : String} (hp : plainPath p = true) : pathClean p = p := by
  unfold plainPath at hp
  unfold pathClean
  split at hp
  · rename_i cs hdata
    have hloop := cleanLoop_plain true cs false ['/'] 1 (by simpa using hp) (by simp) (by simp)
    have hlen : p.length ≠ 0 := by
      show p.data.length ≠ 0
      rw [hdata]
      simp
    simp only [hdata, hloop]
    simp [withSeparator, ← hdata, hlen]
  · rename_i cs hrooted
    cases hdata : p.data with
    | nil => simp [hdata, plainFrom] at hp
    | cons c cs =>
      have hloop := cleanLoop_plain false (c :: cs) false [] 0 (by simpa [hdata] using hp)
        (by simp) (by simp)
      have hc : c ≠ '/' := fun e => hrooted cs (by rw [hdata, e])
      split
      · rename_i heq
        simp at heq
      · rename_i r heq
        simp at heq
        exact absurd heq.1 hc
      · have hlen : p.length ≠ 0 := by
          show p.data.length ≠ 0
          rw [hdata]
          simp
        simp only [hloop]
        simp [withSeparator, ← hdata, hlen]

theorem plainPath_ne_empty {p : String} (hp : plainPath p = true) : (p == "") = false := by
  have : p ≠ "" := by
    intro e
    rw [e] at hp
    exact absurd hp (by decide)
  simpa using this

theorem plainSegment_from {name : String} (h : plainSegment name = true) :
    plainFrom true name.data = true := by
  unfold plainSegment at h
  simp only [Bool.and_eq_true] at h
  exact h.1

theorem plainSegment_no_slash {name : String} (h : plainSegment name = true) :
    '/' ∉ name.data := by
  unfold plainSegment at h
  simp only [Bool.and_eq_true] at h
  intro hmem
  have hc : name.data.contains '/' = true := by simpa using hmem
  rw [hc] at h
  exact absurd h.2 (by decide)

theorem plainPath_append {p name : String} (hp : plainPath p = true)
    (hn : plainSegment name = true) : plainPath (p ++ "/" ++ name) = true := by
  have hd : (p ++ "/" ++ name).data = p.data ++ '/' :: name.data := by
    show (p.data ++ ['/']) ++ name.data = _
    simp
  have hname := plainSegment_from hn
  unfold plainPath at hp ⊢
  rw [hd]
  cases hdata : p.data with
  | nil => simp [hdata, plainFrom] at hp
  | cons c cs =>
    rw [hdata] at hp
    by_cases hc : c = '/'
    · subst hc
      simp only at hp ⊢
      exact plainFrom_slash cs name.data true hp hname
    · have hp' : plainFrom true (c :: cs) = true := by
        split at hp
        · rename_i heq
          simp at heq
          exact absurd heq.1 hc
        · rename_i heq
          exact hp
      have key := plainFrom_slash (c :: cs) name.data true hp' hname
      split
      · rename_i heq
        simp at heq
        exact absurd heq.1 hc
      · exact key

theorem foldl_plain : ∀ (names : List String) (p : String), plainPath p = true →
    (∀ n ∈ names, plainSegment n = true) →
    plainPath (names.foldl (fun acc x => acc ++ "/" ++ x) p) = true
  | [], p, hp, _ => hp
  | n :: names, p, hp, hn =>
    foldl_plain names (p ++ "/" ++ n) (plainPath_append hp (hn n (by simp)))
      (fun m hm => hn m (by simp [hm]))

/-- On a plain path and plain further elements, `path.Join` is concatenation
with slashes: `path.Clean` changes nothing. -/
theorem pathJoin_plain (p : String) (names : List String) (hp : plainPath p = true)
    (hn : ∀ n ∈ names, plainSegment n = true) :
    pathJoin (p :: names) = names.foldl (fun acc x => acc ++ "/" ++ x) p := by
  unfold pathJoin
  rw [List.dropWhile_cons_of_neg (by simp [plainPath_ne_empty hp])]
  exact pathClean_plain (foldl_plain names p hp hn)

theorem plainSegment_candidate {slug number ext : String} (hs : plainSegment slug = true)
    (hn : '/' ∉ number.data) (he : '/' ∉ ext.data) :
    plainSegment (slug ++ "." ++ number ++ ext) = true := by
  have hd : (slug ++ "." ++ number ++ ext).data =
      slug.data ++ ('.' :: (number.data ++ ext.data)) := by
    show ((slug.data ++ ['.']) ++ number.data) ++ ext.data = _
    simp
  have hrest : '/' ∉ '.' :: (number.data ++ ext.data) := by
    intro h
    rcases List.mem_cons.mp h with h | h
    · exact absurd h (by decide)
    · rcases List.mem_append.mp h with h | h
      · exact hn h
      · exact he h
  have hslug := plainSegment_no_slash hs
  unfold plainSegment
  rw [hd, plainFrom_extend slug.data _ true (plainSegment_from hs) hrest]
  have hall : '/' ∉ slug.data ++ '.' :: (number.data ++ ext.data) := by
    intro h
    rcases List.mem_append.mp h with h | h
    · exact hslug h
    · exact hrest h
  simpa using hall

/-- For a content directory that is a plain path and a plain slug, the path of a
slide image candidate is the content directory, `images`, `talks`, the slug and
the candidate name, separated by single slashes. -/
theorem candidate_plain (contentDir slug number ext : String)
    (hc : plainPath contentDir = true) (hs : plainSegment slug = true)
    (hn : '/' ∉ number.data) (he : '/' ∉ ext.data) :
    pathJoin [pathJoin [contentDir, "images", "talks"], slug, slug ++ "." ++ number ++ ext] =
      contentDir ++ "/images/talks/" ++ slug ++ "/" ++ slug ++ "." ++ number ++ ext := by
  have hdir : pathJoin [contentDir, "images", "talks"] =
      contentDir ++ "/" ++ "images" ++ "/" ++ "talks" :=
    pathJoin_plain contentDir ["images", "talks"] hc (by
      intro n hn
      simp at hn
      rcases hn with rfl | rfl <;> decide)
  have hplain : plainPath (contentDir ++ "/" ++ "images" ++ "/" ++ "talks") = true :=
    plainPath_append (plainPath_append hc (by decide)) (by decide)
  rw [hdir, pathJoin_plain _ [slug, slug ++ "." ++ number ++ ext] hplain (by
    intro n hn'
    simp at hn'
    rcases hn' with rfl | rfl
    · exact hs
    · exact plainSegment_candidate hs hn he)]
  apply String.ext
  simp [String.data_append]

/-- For a content directory that is a plain path and a plain slug, the directory
searched for slide images is the content directory, `images`, `talks` and the
slug, separated by single slashes. -/
theorem imageDir_plain (contentDir slug : String) (hc : plainPath contentDir = true)
    (hs : plainSegment slug = true) :
    pathJoin [pathJoin [contentDir, "images", "talks"], slug] =
      contentDir ++ "/images/talks/" ++ slug := by
  have hdir : pathJoin [contentDir, "images", "talks"] =
      contentDir ++ "/" ++ "images" ++ "/" ++ "talks" :=
    pathJoin_plain contentDir ["images", "talks"] hc (by
      intro n hn
      simp at hn
      rcases hn with rfl | rfl <;> decide)
  have hplain : plainPath (contentDir ++ "/" ++ "images" ++ "/" ++ "talks") = true :=
    plainPath_append (plainPath_append hc (by decide)) (by decide)
  rw [hdir, pathJoin_plain _ [slug] hplain (by
    intro n hn'
    simp at hn'
    rw [hn']
    exact hs)]
  apply String.ext
  simp [String.data_append]

/-- For a talk directory that is a plain path and a plain file name, the path
that `Compile` reads is the directory, a slash and the file name. -/
theorem inPath_plain (dir name : String) (hd : plainPath dir = true)
    (hn : plainSegment name = true) : pathJoin [dir, name] = dir ++ "/" ++ name :=
  pathJoin_plain dir [name] hd (by
    intro n hn'
    simp at hn'
    rw [hn']
    exact hn)

theorem sprintf03d_no_slash (n : Nat) : '/' ∉ (sprintf03d n).data := by
  intro h
  have := sprintf03d_allDigits n '/' h
  exact absurd this (by decide)

/-! ## The slide loop -/

section Loop

variable (w : World) (d slug : String)

theorem compileSlides_png (i : Nat) (s : Slide) (rest : List (Option Slide))
    (h : w.stat (pngFile d slug (sprintf03d (i + 1))) = .found) :
    compileSlides w d slug i (some s :: rest) =
      afterIteration (filledSlide w slug (sprintf03d (i + 1)) (pngName slug (sprintf03d (i + 1))) s)
        [pngFile d slug (sprintf03d (i + 1))] (compileSlides w d slug (i + 1) rest) := by
  simp [compileSlides, fileExists, h]

theorem compileSlides_jpg (i : Nat) (s : Slide) (rest : List (Option Slide))
    (h : w.stat (pngFile d slug (sprintf03d (i + 1))) = .notExist)
    (h2 : w.stat (jpgFile d slug (sprintf03d (i + 1))) = .found) :
    compileSlides w d slug i (some s :: rest) =
      afterIteration (filledSlide w slug (sprintf03d (i + 1)) (jpgName slug (sprintf03d (i + 1))) s)
        [pngFile d slug (sprintf03d (i + 1)), jpgFile d slug (sprintf03d (i + 1))]
        (compileSlides w d slug (i + 1) rest) := by
  simp [compileSlides, fileExists, h, h2]

theorem compileSlides_missing (i : Nat) (s : Slide) (rest : List (Option Slide))
    (h : w.stat (pngFile d slug (sprintf03d (i + 1))) = .notExist)
    (h2 : w.stat (jpgFile d slug (sprintf03d (i + 1))) = .notExist) :
    compileSlides w d slug i (some s :: rest) =
      (.returns (.error (missingImageMessage d slug (sprintf03d (i + 1)))),
        [pngFile d slug (sprintf03d (i + 1)), jpgFile d slug (sprintf03d (i + 1))]) := by
  simp [compileSlides, fileExists, h, h2]

theorem compileSlides_pngFault (i : Nat) (s : Slide) (rest : List (Option Slide)) (e : String)
    (h : w.stat (pngFile d slug (sprintf03d (i + 1))) = .fault e) :
    compileSlides w d slug i (some s :: rest) =
      (.panics e, [pngFile d slug (sprintf03d (i + 1))]) := by
  simp [compileSlides, fileExists, h]

theorem compileSlides_jpgFault (i : Nat) (s : Slide) (rest : List (Option Slide)) (e : String)
    (h : w.stat (pngFile d slug (sprintf03d (i + 1))) = .notExist)
    (h2 : w.stat (jpgFile d slug (sprintf03d (i + 1))) = .fault e) :
    compileSlides w d slug i (some s :: rest) =
      (.panics e, [pngFile d slug (sprintf03d (i + 1)), jpgFile d slug (sprintf03d (i + 1))]) := by
  simp [compileSlides, fileExists, h, h2]

theorem afterIteration_ok_inv {slide1 : Slide} {checked : List String}
    {later : Outcome (Except String (List (Option Slide))) × List String}
    {out : List (Option Slide)}
    (h : (afterIteration slide1 checked later).1 = .returns (.ok out)) :
    ∃ done, later.1 = .returns (.ok done) ∧ out = some slide1 :: done := by
  rcases later with ⟨o, log⟩
  rcases o with (⟨e⟩ | ⟨done⟩) | m
  · simp [afterIteration] at h
  · refine ⟨done, rfl, ?_⟩
    simp [afterIteration] at h
    exact h.symm
  · simp [afterIteration] at h

theorem afterIteration_of_ok {slide1 : Slide} {checked : List String}
    {later : Outcome (Except String (List (Option Slide))) × List String}
    {done : List (Option Slide)} (h : later.1 = .returns (.ok done)) :
    (afterIteration slide1 checked later).1 = .returns (.ok (some slide1 :: done)) := by
  rcases later with ⟨o, log⟩
  simp only at h
  subst h
  rfl

theorem afterIteration_of_not_ok {slide1 : Slide} {checked : List String}
    {later : Outcome (Except String (List (Option Slide))) × List String}
    (h : ∀ done, later.1 ≠ .returns (.ok done)) :
    (afterIteration slide1 checked later).1 = later.1 := by
  rcases later with ⟨o, log⟩
  rcases o with (⟨e⟩ | ⟨done⟩) | m
  · rfl
  · exact absurd rfl (h done)
  · rfl

theorem afterIteration_log (slide1 : Slide) (checked : List String)
    (later : Outcome (Except String (List (Option Slide))) × List String) :
    (afterIteration slide1 checked later).2 = checked ++ later.2 := by
  rcases later with ⟨o, log⟩
  rcases o with (⟨e⟩ | ⟨done⟩) | m <;> rfl

theorem index_shift (i k : Nat) : i + (k + 1) + 1 = i + 1 + k + 1 := by omega

theorem compileSlides_ok_inv : ∀ (l : List (Option Slide)) (i : Nat) (out : List (Option Slide)),
    (compileSlides w d slug i l).1 = .returns (.ok out) →
    out.length = l.length ∧ ∀ k, k < l.length → FilledAt w d slug l out i k
  | [], i, out, h => by
    simp [compileSlides] at h
    subst h
    exact ⟨rfl, fun k hk => absurd hk (by simp)⟩
  | none :: rest, i, out, h => by
    simp [compileSlides] at h
  | some s :: rest, i, out, h => by
    cases hpng : w.stat (pngFile d slug (sprintf03d (i + 1))) with
    | found =>
      rw [compileSlides_png w d slug i s rest hpng] at h
      obtain ⟨done, hdone, rfl⟩ := afterIteration_ok_inv h
      obtain ⟨hlen, hfill⟩ := compileSlides_ok_inv rest (i + 1) done hdone
      refine ⟨by simp [hlen], fun k hk => ?_⟩
      cases k with
      | zero => exact ⟨s, by simp, Or.inl ⟨hpng, by simp⟩⟩
      | succ k =>
        have := hfill k (by simpa using hk)
        unfold FilledAt at this ⊢
        rw [index_shift]
        simpa using this
    | fault e =>
      rw [compileSlides_pngFault w d slug i s rest e hpng] at h
      simp at h
    | notExist =>
      cases hjpg : w.stat (jpgFile d slug (sprintf03d (i + 1))) with
      | found =>
        rw [compileSlides_jpg w d slug i s rest hpng hjpg] at h
        obtain ⟨done, hdone, rfl⟩ := afterIteration_ok_inv h
        obtain ⟨hlen, hfill⟩ := compileSlides_ok_inv rest (i + 1) done hdone
        refine ⟨by simp [hlen], fun k hk => ?_⟩
        cases k with
        | zero => exact ⟨s, by simp, Or.inr ⟨hpng, hjpg, by simp⟩⟩
        | succ k =>
          have := hfill k (by simpa using hk)
          unfold FilledAt at this ⊢
          rw [index_shift]
          simpa using this
      | fault e =>
        rw [compileSlides_jpgFault w d slug i s rest e hpng hjpg] at h
        simp at h
      | notExist =>
        rw [compileSlides_missing w d slug i s rest hpng hjpg] at h
        simp at h

theorem compileSlides_ok_of_images : ∀ (l : List (Option Slide)) (i : Nat),
    (∀ k, k < l.length → ImageAt w d slug l i k) →
    ∃ out, (compileSlides w d slug i l).1 = .returns (.ok out)
  | [], i, _ => ⟨[], rfl⟩
  | none :: rest, i, h => by
    obtain ⟨⟨s, hs⟩, _⟩ := h 0 (by simp)
    simp at hs
  | some s :: rest, i, h => by
    have hrest : ∀ k, k < rest.length → ImageAt w d slug rest (i + 1) k := by
      intro k hk
      have := h (k + 1) (by simpa using hk)
      unfold ImageAt at this ⊢
      rw [index_shift] at this
      simpa using this
    obtain ⟨done, hdone⟩ := compileSlides_ok_of_images rest (i + 1) hrest
    obtain ⟨_, himg⟩ := h 0 (by simp)
    rcases himg with hpng | ⟨hpng, hjpg⟩
    · rw [compileSlides_png w d slug i s rest hpng]
      exact ⟨_, afterIteration_of_ok hdone⟩
    · rw [compileSlides_jpg w d slug i s rest hpng hjpg]
      exact ⟨_, afterIteration_of_ok hdone⟩

theorem compileSlides_first_missing : ∀ (l : List (Option Slide)) (i k : Nat),
    k < l.length →
    (∀ j, j < k → ImageAt w d slug l i j) →
    (∃ s, l[k]? = some (some s)) →
    w.stat (pngFile d slug (sprintf03d (i + k + 1))) = .notExist →
    w.stat (jpgFile d slug (sprintf03d (i + k + 1))) = .notExist →
    (compileSlides w d slug i l).1 =
      .returns (.error (missingImageMessage d slug (sprintf03d (i + k + 1))))
  | [], i, k, hk, _, _, _, _ => absurd hk (by simp)
  | none :: rest, i, 0, _, _, ⟨s, hs⟩, _, _ => by simp at hs
  | none :: rest, i, k + 1, _, hbefore, _, _, _ => by
    obtain ⟨⟨s, hs⟩, _⟩ := hbefore 0 (by omega)
    simp at hs
  | some s :: rest, i, 0, _, _, _, hpng, hjpg => by
    rw [compileSlides_missing w d slug i s rest hpng hjpg]
  | some s :: rest, i, k + 1, hk, hbefore, hsome, hpng, hjpg => by
    have hrest : ∀ j, j < k → ImageAt w d slug rest (i + 1) j := by
      intro j hj
      have := hbefore (j + 1) (by omega)
      unfold ImageAt at this ⊢
      rw [index_shift] at this
      simpa using this
    rw [index_shift] at hpng hjpg
    have ih := compileSlides_first_missing rest (i + 1) k (by simpa using hk) hrest
      (by simpa using hsome) hpng hjpg
    have hnot : ∀ done, (compileSlides w d slug (i + 1) rest).1 ≠ .returns (.ok done) := by
      intro done hd
      rw [ih] at hd
      simp at hd
    rw [index_shift, ← ih]
    obtain ⟨_, himg⟩ := hbefore 0 (by omega)
    rcases himg with hp | ⟨hp, hj⟩
    · rw [compileSlides_png w d slug i s rest hp]
      exact afterIteration_of_not_ok hnot
    · rw [compileSlides_jpg w d slug i s rest hp hj]
      exact afterIteration_of_not_ok hnot

theorem compileSlides_fault_panics : ∀ (l : List (Option Slide)) (i : Nat) (p e : String),
    p ∈ (compileSlides w d slug i l).2 → w.stat p = .fault e →
    (compileSlides w d slug i l).1 = .panics e
  | [], i, p, e, hp, _ => by simp [compileSlides] at hp
  | none :: rest, i, p, e, hp, _ => by simp [compileSlides] at hp
  | some s :: rest, i, p, e, hp, he => by
    cases hpng : w.stat (pngFile d slug (sprintf03d (i + 1))) with
    | found =>
      rw [compileSlides_png w d slug i s rest hpng] at hp ⊢
      rw [afterIteration_log] at hp
      rcases List.mem_append.mp hp with hp | hp
      · simp at hp
        rw [hp, hpng] at he
        simp at he
      · have ih := compileSlides_fault_panics rest (i + 1) p e hp he
        rw [← ih]
        apply afterIteration_of_not_ok
        intro done hd
        rw [ih] at hd
        simp at hd
    | fault e1 =>
      rw [compileSlides_pngFault w d slug i s rest e1 hpng] at hp ⊢
      simp at hp
      rw [hp, hpng] at he
      simp at he
      rw [he]
    | notExist =>
      cases hjpg : w.stat (jpgFile d slug (sprintf03d (i + 1))) with
      | found =>
        rw [compileSlides_jpg w d slug i s rest hpng hjpg] at hp ⊢
        rw [afterIteration_log] at hp
        rcases List.mem_append.mp hp with hp | hp
        · simp at hp
          rcases hp with hp | hp
          · rw [hp, hpng] at he
            simp at he
          · rw [hp, hjpg] at he
            simp at he
        · have ih := compileSlides_fault_panics rest (i + 1) p e hp he
          rw [← ih]
          apply afterIteration_of_not_ok
          intro done hd
          rw [ih] at hd
          simp at hd
      | fault e1 =>
        rw [compileSlides_jpgFault w d slug i s rest e1 hpng hjpg] at hp ⊢
        simp at hp
        rcases hp with hp | hp
        · rw [hp, hpng] at he
          simp at he
        · rw [hp, hjpg] at he
          simp at he
          rw [he]
      | notExist =>
        rw [compileSlides_missing w d slug i s rest hpng hjpg] at hp
        simp at hp
        rcases hp with hp | hp
        · rw [hp, hpng] at he
          simp at he
        · rw [hp, hjpg] at he
          simp at he

end Loop

/-! ## `Compile` as a whole -/

section CompileLemmas

variable (w : World) (contentDir dir name : String) (draft : Bool)

theorem Compile_of_valid {raw : List UInt8} {talk0 : Talk}
    (hread : w.readFile (pathJoin [dir, name]) = .ok raw)
    (hyaml : w.yamlUnmarshal raw = .ok talk0)
    (hEvent : talk0.Event ≠ "") (hIntro : renderMarkdown w talk0.IntroRaw ≠ "")
    (hLocation : talk0.Location ≠ "") (hTitle : talk0.Title ≠ "")
    (hPublished : talk0.PublishedAt ≠ none) :
    Compile w contentDir dir name draft =
      afterValidation w name draft talk0
        (compileSlides w (pathJoin [contentDir, "images", "talks"])
          (stringsReplaceAll name ".yaml" "") 0 talk0.Slides) := by
  simp only [Compile, hread, hyaml, hEvent, hIntro, hLocation, hTitle, hPublished, if_false]
  rfl

theorem Compile_ok_inv {t : Talk}
    (h : (Compile w contentDir dir name draft).outcome = .returns (.ok t)) :
    ∃ raw talk0 slides,
      w.readFile (pathJoin [dir, name]) = .ok raw ∧ w.yamlUnmarshal raw = .ok talk0 ∧
      talk0.Event ≠ "" ∧ renderMarkdown w talk0.IntroRaw ≠ "" ∧ talk0.Location ≠ "" ∧
      talk0.Title ≠ "" ∧ talk0.PublishedAt ≠ none ∧
      (compileSlides w (pathJoin [contentDir, "images", "talks"])
        (stringsReplaceAll name ".yaml" "") 0 talk0.Slides).1 = .returns (.ok slides) ∧
      t = compiledTalk w name draft talk0 slides := by
  cases hread : w.readFile (pathJoin [dir, name]) with
  | error e => simp [Compile, hread] at h
  | ok raw =>
    cases hyaml : w.yamlUnmarshal raw with
    | error e => simp [Compile, hread, hyaml] at h
    | ok talk0 =>
      by_cases hEvent : talk0.Event = ""
      · simp [Compile, hread, hyaml, hEvent] at h
      by_cases hIntro : renderMarkdown w talk0.IntroRaw = ""
      · simp [Compile, hread, hyaml, hEvent, hIntro] at h
      by_cases hLocation : talk0.Location = ""
      · simp [Compile, hread, hyaml, hEvent, hIntro, hLocation] at h
      by_cases hTitle : talk0.Title = ""
      · simp [Compile, hread, hyaml, hEvent, hIntro, hLocation, hTitle] at h
      by_cases hPublished : talk0.PublishedAt = none
      · simp [Compile, hread, hyaml, hEvent, hIntro, hLocation, hTitle, hPublished] at h
      rw [Compile_of_valid w contentDir dir name draft hread hyaml hEvent hIntro hLocation
        hTitle hPublished] at h
      generalize hloop : compileSlides w (pathJoin [contentDir, "images", "talks"])
          (stringsReplaceAll name ".yaml" "") 0 talk0.Slides = loop at h
      rcases loop with ⟨o, log⟩
      rcases o with (⟨e⟩ | ⟨slides⟩) | m
      · simp [afterValidation] at h
      · simp [afterValidation] at h
        exact ⟨raw, talk0, slides, rfl, hyaml, hEvent, hIntro, hLocation, hTitle, hPublished,
          by rw [hloop], h.symm⟩
      · simp [afterValidation] at h

theorem Compile_noEvent {raw : List UInt8} {talk0 : Talk}
    (hread : w.readFile (pathJoin [dir, name]) = .ok raw)
    (hyaml : w.yamlUnmarshal raw = .ok talk0) (hEvent : talk0.Event = "") :
    Compile w contentDir dir name draft =
      ⟨.returns (.error ("No event for talk: " ++ pathJoin [dir, name])), []⟩ := by
  simp [Compile, hread, hyaml, hEvent]

theorem Compile_noIntro {raw : List UInt8} {talk0 : Talk}
    (hread : w.readFile (pathJoin [dir, name]) = .ok raw)
    (hyaml : w.yamlUnmarshal raw = .ok talk0) (hEvent : talk0.Event ≠ "")
    (hIntro : renderMarkdown w talk0.IntroRaw = "") :
    Compile w contentDir dir name draft =
      ⟨.returns (.error ("No intro for talk: " ++ pathJoin [dir, name])), []⟩ := by
  simp [Compile, hread, hyaml, hEvent, hIntro]

theorem Compile_noLocation {raw : List UInt8} {talk0 : Talk}
    (hread : w.readFile (pathJoin [dir, name]) = .ok raw)
    (hyaml : w.yamlUnmarshal raw = .ok talk0) (hEvent : talk0.Event ≠ "")
    (hIntro : renderMarkdown w talk0.IntroRaw ≠ "") (hLocation : talk0.Location = "") :
    Compile w contentDir dir name draft =
      ⟨.returns (.error ("No location for talk: " ++ pathJoin [dir, name])), []⟩ := by
  simp [Compile, hread, hyaml, hEvent, hIntro, hLocation]

theorem Compile_noTitle {raw : List UInt8} {talk0 : Talk}
    (hread : w.readFile (pathJoin [dir, name]) = .ok raw)
    (hyaml : w.yamlUnmarshal raw = .ok talk0) (hEvent : talk0.Event ≠ "")
    (hIntro : renderMarkdown w talk0.IntroRaw ≠ "") (hLocation : talk0.Location ≠ "")
    (hTitle : talk0.Title = "") :
    Compile w contentDir dir name draft =
      ⟨.returns (.error ("No title for talk: " ++ pathJoin [dir, name])), []⟩ := by
  simp [Compile, hread, hyaml, hEvent, hIntro, hLocation, hTitle]

theorem Compile_noPublishedAt {raw : List UInt8} {talk0 : Talk}
    (hread : w.readFile (pathJoin [dir, name]) = .ok raw)
    (hyaml : w.yamlUnmarshal raw = .ok talk0) (hEvent : talk0.Event ≠ "")
    (hIntro : renderMarkdown w talk0.IntroRaw ≠ "") (hLocation : talk0.Location ≠ "")
    (hTitle : talk0.Title ≠ "") (hPublished : talk0.PublishedAt = none) :
    Compile w contentDir dir name draft =
      ⟨.returns (.error ("No publish date for talk: " ++ pathJoin [dir, name])), []⟩ := by
  simp [Compile, hread, hyaml, hEvent, hIntro, hLocation, hTitle, hPublished]

theorem Compile_violation {raw : List UInt8} {talk0 : Talk}
    (hread : w.readFile (pathJoin [dir, name]) = .ok raw)
    (hyaml : w.yamlUnmarshal raw = .ok talk0)
    (hviol : talk0.Event = "" ∨ renderMarkdown w talk0.IntroRaw = "" ∨ talk0.Location = "" ∨
      talk0.Title = "" ∨ talk0.PublishedAt = none) :
    ∃ err, Compile w contentDir dir name draft = ⟨.returns (.error err), []⟩ := by
  by_cases hEvent : talk0.Event = ""
  · exact ⟨_, Compile_noEvent w contentDir dir name draft hread hyaml hEvent⟩
  by_cases hIntro : renderMarkdown w talk0.IntroRaw = ""
  · exact ⟨_, Compile_noIntro w contentDir dir name draft hread hyaml hEvent hIntro⟩
  by_cases hLocation : talk0.Location = ""
  · exact ⟨_, Compile_noLocation w contentDir dir name draft hread hyaml hEvent hIntro hLocation⟩
  by_cases hTitle : talk0.Title = ""
  · exact ⟨_, Compile_noTitle w contentDir dir name draft hread hyaml hEvent hIntro hLocation
      hTitle⟩
  by_cases hPublished : talk0.PublishedAt = none
  · exact ⟨_, Compile_noPublishedAt w contentDir dir name draft hread hyaml hEvent hIntro
      hLocation hTitle hPublished⟩
  rcases hviol with h | h | h | h | h
  · exact absurd h hEvent
  · exact absurd h hIntro
  · exact absurd h hLocation
  · exact absurd h hTitle
  · exact absurd h hPublished

theorem Compile_fault_panics (p e : String)
    (hp : p ∈ (Compile w contentDir dir name draft).statLog) (he : w.stat p = .fault e) :
    (Compile w contentDir dir name draft).outcome = .panics e := by
  cases hread : w.readFile (pathJoin [dir, name]) with
  | error e1 => simp [Compile, hread] at hp
  | ok raw =>
    cases hyaml : w.yamlUnmarshal raw with
    | error e1 => simp [Compile, hread, hyaml] at hp
    | ok talk0 =>
      by_cases hviol : talk0.Event = "" ∨ renderMarkdown w talk0.IntroRaw = "" ∨
          talk0.Location = "" ∨ talk0.Title = "" ∨ talk0.PublishedAt = none
      · obtain ⟨err, herr⟩ := Compile_violation w contentDir dir name draft hread hyaml hviol
        rw [herr] at hp
        simp at hp
      · simp only [not_or] at hviol
        obtain ⟨hEvent, hIntro, hLocation, hTitle, hPublished⟩ := hviol
        rw [Compile_of_valid w contentDir dir name draft hread hyaml hEvent hIntro hLocation
          hTitle hPublished] at hp ⊢
        have key := compileSlides_fault_panics w (pathJoin [contentDir, "images", "talks"])
          (stringsReplaceAll name ".yaml" "") talk0.Slides 0 p e
        generalize compileSlides w (pathJoin [contentDir, "images", "talks"])
          (stringsReplaceAll name ".yaml" "") 0 talk0.Slides = loop at hp key ⊢
        rcases loop with ⟨o, log⟩
        rcases o with (⟨e1⟩ | ⟨slides⟩) | m
        · have := key (by simpa [afterValidation] using hp) he
          simp at this
        · have := key (by simpa [afterValidation] using hp) he
          simp at this
        · have := key (by simpa [afterValidation] using hp) he
          simp only [Outcome.panics.injEq] at this
          simp [afterValidation, this]

theorem assetPath_png (slug number : String) :
    assetPath slug (pngName slug number) =
      "/assets/talks/" ++ slug ++ "/" ++ slug ++ "." ++ number ++ ".png" := by
  have h : talksAssetPath ++ "/" = "/assets/talks/" := by decide
  simp only [assetPath, pngName, ← String.append_assoc, h]

theorem assetPath_jpg (slug number : String) :
    assetPath slug (jpgName slug number) =
      "/assets/talks/" ++ slug ++ "/" ++ slug ++ "." ++ number ++ ".jpg" := by
  have h : talksAssetPath ++ "/" = "/assets/talks/" := by decide
  simp only [assetPath, jpgName, ← String.append_assoc, h]


theorem Compile_ok_slides {t : Talk}
    (h : (Compile w contentDir dir name draft).outcome = .returns (.ok t)) :
    ∃ raw talk0,
      w.readFile (pathJoin [dir, name]) = .ok raw ∧ w.yamlUnmarshal raw = .ok talk0 ∧
      t.Slug = stringsReplaceAll name ".yaml" "" ∧ t.Draft = draft ∧
      t.Slides.length = talk0.Slides.length ∧
      ∀ k, k < talk0.Slides.length →
        FilledAt w (pathJoin [contentDir, "images", "talks"]) (stringsReplaceAll name ".yaml" "")
          talk0.Slides t.Slides 0 k := by
  obtain ⟨raw, talk0, slides, hread, hyaml, _, _, _, _, _, hloop, rfl⟩ :=
    Compile_ok_inv w contentDir dir name draft h
  obtain ⟨hlen, hfill⟩ := compileSlides_ok_inv w _ _ talk0.Slides 0 slides hloop
  exact ⟨raw, talk0, hread, hyaml, rfl, rfl, hlen, hfill⟩

theorem Compile_ok_slide {t : Talk} {k : Nat} {s : Slide}
    (h : (Compile w contentDir dir name draft).outcome = .returns (.ok t))
    (hs : t.Slides[k]? = some (some s)) :
    ∃ s0 : Slide, s.Number = sprintf03d (k + 1) ∧ s.CaptionRaw = s0.CaptionRaw ∧
      s.Caption = renderMarkdown w s0.CaptionRaw ∧
      ((w.stat (pngFile (pathJoin [contentDir, "images", "talks"]) t.Slug s.Number) = .found ∧
          s.ImagePath = assetPath t.Slug (pngName t.Slug s.Number)) ∨
        (w.stat (pngFile (pathJoin [contentDir, "images", "talks"]) t.Slug s.Number) = .notExist ∧
          w.stat (jpgFile (pathJoin [contentDir, "images", "talks"]) t.Slug s.Number) = .found ∧
          s.ImagePath = assetPath t.Slug (jpgName t.Slug s.Number))) := by
  obtain ⟨raw, talk0, _, _, hslug, _, hlen, hfill⟩ := Compile_ok_slides w contentDir dir name draft h
  have hk : k < talk0.Slides.length := by
    rw [← hlen]
    by_contra hk
    rw [List.getElem?_eq_none (by omega)] at hs
    simp at hs
  obtain ⟨s0, _, hcase⟩ := hfill k hk
  rw [Nat.zero_add] at hcase
  rw [hslug]
  rcases hcase with ⟨hpng, hout⟩ | ⟨hpng, hjpg, hout⟩
  · rw [hs] at hout
    have hs' : s = _ := Option.some.inj (Option.some.inj hout)
    subst hs'
    exact ⟨s0, rfl, rfl, rfl, Or.inl ⟨hpng, rfl⟩⟩
  · rw [hs] at hout
    have hs' : s = _ := Option.some.inj (Option.some.inj hout)
    subst hs'
    exact ⟨s0, rfl, rfl, rfl, Or.inr ⟨hpng, hjpg, rfl⟩⟩

theorem Compile_ok_of_images (raw : List UInt8) (talk0 : Talk)
    (hread : w.readFile (pathJoin [dir, name]) = .ok raw)
    (hyaml : w.yamlUnmarshal raw = .ok talk0)
    (hEvent : talk0.Event ≠ "") (hIntro : renderMarkdown w talk0.IntroRaw ≠ "")
    (hLocation : talk0.Location ≠ "") (hTitle : talk0.Title ≠ "")
    (hPublished : talk0.PublishedAt ≠ none)
    (himages : ∀ k, k < talk0.Slides.length →
      ImageAt w (pathJoin [contentDir, "images", "talks"]) (stringsReplaceAll name ".yaml" "")
        talk0.Slides 0 k) :
    ∃ t, (Compile w contentDir dir name draft).outcome = .returns (.ok t) := by
  obtain ⟨out, hout⟩ := compileSlides_ok_of_images w _ _ talk0.Slides 0 himages
  rw [Compile_of_valid w contentDir dir name draft hread hyaml hEvent hIntro hLocation hTitle
    hPublished]
  generalize compileSlides w (pathJoin [contentDir, "images", "talks"])
    (stringsReplaceAll name ".yaml" "") 0 talk0.Slides = loop at hout ⊢
  rcases loop with ⟨o, log⟩
  simp only at hout
  subst hout
  exact ⟨_, rfl⟩

theorem Compile_first_missing {raw : List UInt8} {talk0 : Talk} (k : Nat)
    (hread : w.readFile (pathJoin [dir, name]) = .ok raw)
    (hyaml : w.yamlUnmarshal raw = .ok talk0)
    (hEvent : talk0.Event ≠ "") (hIntro : renderMarkdown w talk0.IntroRaw ≠ "")
    (hLocation : talk0.Location ≠ "") (hTitle : talk0.Title ≠ "")
    (hPublished : talk0.PublishedAt ≠ none)
    (hk : k < talk0.Slides.length)
    (hbefore : ∀ j, j < k →
      ImageAt w (pathJoin [contentDir, "images", "talks"]) (stringsReplaceAll name ".yaml" "")
        talk0.Slides 0 j)
    (hslide : ∃ s, talk0.Slides[k]? = some (some s))
    (hpng : w.stat (pngFile (pathJoin [contentDir, "images", "talks"])
      (stringsReplaceAll name ".yaml" "") (sprintf03d (k + 1))) = .notExist)
    (hjpg : w.stat (jpgFile (pathJoin [contentDir, "images", "talks"])
      (stringsReplaceAll name ".yaml" "") (sprintf03d (k + 1))) = .notExist) :
    (Compile w contentDir dir name draft).outcome =
      .returns (.error (missingImageMessage (pathJoin [contentDir, "images", "talks"])
        (stringsReplaceAll name ".yaml" "") (sprintf03d (k + 1)))) := by
  have key := compileSlides_first_missing w (pathJoin [contentDir, "images", "talks"])
    (stringsReplaceAll name ".yaml" "") talk0.Slides 0 k hk hbefore hslide
    (by rw [Nat.zero_add]; exact hpng) (by rw [Nat.zero_add]; exact hjpg)
  rw [Nat.zero_add] at key
  rw [Compile_of_valid w contentDir dir name draft hread hyaml hEvent hIntro hLocation hTitle
    hPublished]
  generalize compileSlides w (pathJoin [contentDir, "images", "talks"])
    (stringsReplaceAll name ".yaml" "") 0 talk0.Slides = loop at key ⊢
  rcases loop with ⟨o, log⟩
  simp only at key
  subst key
  rfl

theorem Compile_ok_present (raw : List UInt8) (talk0 : Talk) {t : Talk}
    (hread : w.readFile (pathJoin [dir, name]) = .ok raw)
    (hyaml : w.yamlUnmarshal raw = .ok talk0)
    (h : (Compile w contentDir dir name draft).outcome = .returns (.ok t)) :
    t.Slides.length = talk0.Slides.length ∧
    ∀ i, i < talk0.Slides.length → ∃ s, t.Slides[i]? = some (some s) := by
  obtain ⟨raw1, talk1, hread1, hyaml1, _, _, hlen, hfill⟩ :=
    Compile_ok_slides w contentDir dir name draft h
  rw [hread] at hread1
  cases hread1
  rw [hyaml] at hyaml1
  cases hyaml1
  refine ⟨hlen, fun i hi => ?_⟩
  obtain ⟨s0, _, hcase⟩ := hfill i hi
  rcases hcase with ⟨_, hout⟩ | ⟨_, _, hout⟩
  · exact ⟨_, hout⟩
  · exact ⟨_, hout⟩

end CompileLemmas

/-! ## The scenario of the specification -/

/-- The scenario: `launch.yaml` with one slide and `launch.001.jpg` as the only
image compiles to a Talk with Slug `launch` whose slide has Number `001`, the
JPG URL and the rendered caption; both candidates were checked, PNG first. -/
theorem launch_scenario :
    (Compile launchWorld "./content" "./talks" "launch.yaml" true).outcome =
      .returns (.ok launchResult) ∧
    (Compile launchWorld "./content" "./talks" "launch.yaml" true).statLog =
      ["content/images/talks/launch/launch.001.png",
        "content/images/talks/launch/launch.001.jpg"] ∧
    launchResult.Slug = "launch" ∧ launchResult.Slides = [some launchSlide] ∧
    launchSlide.Number = "001" ∧
    launchSlide.ImagePath = "/assets/talks/launch/launch.001.jpg" ∧
    launchSlide.Caption = renderMarkdown launchWorld "Intro slide" :=
  ⟨rfl, by decide, rfl, rfl, rfl, rfl, by decide⟩

/-! ## The claims -/

/-- C1: a Talk that Compile returns without error has a non-empty Event, an Intro
that is the rendered IntroRaw and is non-empty, a non-empty Location, a
non-empty Title and a present PublishedAt, so that PublishingInfo returns on it
instead of dereferencing nil; and whenever the deserialized talk lacks one of
event, rendered intro, location, title or published_at, Compile returns an
error and no Talk. -/
theorem compile_required_fields (w : World) (contentDir dir name : String) (draft : Bool) :
    (∀ t, (Compile w contentDir dir name draft).outcome = .returns (.ok t) →
      t.Event ≠ "" ∧ t.Intro = renderMarkdown w t.IntroRaw ∧ t.Intro ≠ "" ∧
      t.Location ≠ "" ∧ t.Title ≠ "" ∧ (∃ publishedAt, t.PublishedAt = some publishedAt) ∧
      ∀ (format : Time → String) (twitterInfo : String),
        ∃ html, PublishingInfo format twitterInfo t = .returns html) ∧
    (∀ raw talk0, w.readFile (pathJoin [dir, name]) = .ok raw →
      w.yamlUnmarshal raw = .ok talk0 →
      (talk0.Event = "" ∨ renderMarkdown w talk0.IntroRaw = "" ∨ talk0.Location = "" ∨
        talk0.Title = "" ∨ talk0.PublishedAt = none) →
      ∃ err, (Compile w contentDir dir name draft).outcome = .returns (.error err)) := by
  constructor
  · intro t h
    obtain ⟨raw, talk0, slides, _, _, hEvent, hIntro, hLocation, hTitle, hPublished, _, rfl⟩ :=
      Compile_ok_inv w contentDir dir name draft h
    obtain ⟨publishedAt, hp⟩ : ∃ publishedAt, talk0.PublishedAt = some publishedAt :=
      Option.ne_none_iff_exists'.mp hPublished
    refine ⟨hEvent, rfl, hIntro, hLocation, hTitle, ⟨publishedAt, hp⟩, ?_⟩
    intro format twitterInfo
    simp only [PublishingInfo, compiledTalk, hp]
    exact ⟨_, rfl⟩
  · intro raw talk0 hread hyaml hviol
    obtain ⟨err, herr⟩ := Compile_violation w contentDir dir name draft hread hyaml hviol
    exact ⟨err, by rw [herr]⟩

/-- C1, at concrete inputs: the talk compiled from `launch.yaml` has all its
required fields, and a talk without event is refused. -/
theorem compile_required_fields_witness :
    (Compile launchWorld "./content" "./talks" "launch.yaml" true).outcome =
      .returns (.ok launchResult) ∧
    (launchResult.Event ≠ "" ∧ launchResult.Intro = renderMarkdown launchWorld launchResult.IntroRaw ∧
      launchResult.Intro ≠ "" ∧ launchResult.Location ≠ "" ∧ launchResult.Title ≠ "" ∧
      (∃ publishedAt, launchResult.PublishedAt = some publishedAt) ∧
      ∀ (format : Time → String) (twitterInfo : String),
        ∃ html, PublishingInfo format twitterInfo launchResult = .returns html) ∧
    untitledTalk.Event = "" ∧
    ∃ err, (Compile (worldOf untitledTalk (fun _ => .found)) "content" "talks" "launch.yaml"
      false).outcome = .returns (.error err) :=
  ⟨rfl,
    (compile_required_fields launchWorld "./content" "./talks" "launch.yaml" true).1
      launchResult rfl,
    rfl,
    (compile_required_fields (worldOf untitledTalk (fun _ => .found)) "content" "talks"
      "launch.yaml" false).2 [] untitledTalk rfl rfl (Or.inl rfl)⟩

/-- C2: for a Talk that Compile returns and a slide of it, with `S` the talk's
Slug and `NNN` the slide's Number: when `os.Stat` finds the PNG candidate
`path.Join(path.Join(contentDir, "images", "talks"), S, S.NNN.png)`, ImagePath is
exactly `/assets/talks/S/S.NNN.png`, whatever the answer for the JPG candidate;
otherwise the JPG candidate is found and ImagePath is `/assets/talks/S/S.NNN.jpg`.
When contentDir is a path of plain elements and `S` is a plain element, the two
candidates are `contentDir/images/talks/S/S.NNN.png` and `.jpg` letter for
letter. -/
theorem compile_image_precedence (w : World) (contentDir dir name : String) (draft : Bool)
    (t : Talk) (k : Nat) (s : Slide)
    (h : (Compile w contentDir dir name draft).outcome = .returns (.ok t))
    (hs : t.Slides[k]? = some (some s)) :
    (w.stat (pathJoin [pathJoin [contentDir, "images", "talks"], t.Slug,
        t.Slug ++ "." ++ s.Number ++ ".png"]) = .found →
      s.ImagePath = "/assets/talks/" ++ t.Slug ++ "/" ++ t.Slug ++ "." ++ s.Number ++ ".png") ∧
    (w.stat (pathJoin [pathJoin [contentDir, "images", "talks"], t.Slug,
        t.Slug ++ "." ++ s.Number ++ ".png"]) ≠ .found →
      w.stat (pathJoin [pathJoin [contentDir, "images", "talks"], t.Slug,
        t.Slug ++ "." ++ s.Number ++ ".jpg"]) = .found ∧
      s.ImagePath = "/assets/talks/" ++ t.Slug ++ "/" ++ t.Slug ++ "." ++ s.Number ++ ".jpg") ∧
    (plainPath contentDir = true → plainSegment t.Slug = true →
      pathJoin [pathJoin [contentDir, "images", "talks"], t.Slug,
          t.Slug ++ "." ++ s.Number ++ ".png"] =
        contentDir ++ "/images/talks/" ++ t.Slug ++ "/" ++ t.Slug ++ "." ++ s.Number ++ ".png" ∧
      pathJoin [pathJoin [contentDir, "images", "talks"], t.Slug,
          t.Slug ++ "." ++ s.Number ++ ".jpg"] =
        contentDir ++ "/images/talks/" ++ t.Slug ++ "/" ++ t.Slug ++ "." ++ s.Number ++ ".jpg") := by
  obtain ⟨s0, hnum, _, _, hcase⟩ := Compile_ok_slide w contentDir dir name draft h hs
  rw [assetPath_png, assetPath_jpg] at hcase
  refine ⟨?_, ?_, ?_⟩
  · rcases hcase with ⟨hpng, himg⟩ | ⟨hpng, hjpg, himg⟩
    · exact fun _ => himg
    · intro hf
      have hf' : w.stat (pngFile (pathJoin [contentDir, "images", "talks"]) t.Slug s.Number) =
          .found := hf
      rw [hpng] at hf'
      exact absurd hf' (by simp)
  · rcases hcase with ⟨hpng, himg⟩ | ⟨hpng, hjpg, himg⟩
    · exact fun hne => absurd hpng hne
    · exact fun _ => ⟨hjpg, himg⟩
  · intro hdir hslug
    have hn : '/' ∉ s.Number.data := by
      rw [hnum]
      exact sprintf03d_no_slash (k + 1)
    exact ⟨candidate_plain contentDir t.Slug s.Number ".png" hdir hslug hn (by decide),
      candidate_plain contentDir t.Slug s.Number ".jpg" hdir hslug hn (by decide)⟩

/-- C2, at concrete inputs: with only `launch.001.jpg` on disk the slide gets the
JPG URL, and with both candidates on disk it gets the PNG URL. -/
theorem compile_image_precedence_witness :
    ((launchWorld.stat (pathJoin [pathJoin ["./content", "images", "talks"], launchResult.Slug,
        launchResult.Slug ++ "." ++ launchSlide.Number ++ ".png"]) ≠ .found) ∧
      launchSlide.ImagePath = "/assets/talks/launch/launch.001.jpg") ∧
    launchSlidePng.ImagePath = "/assets/talks/launch/launch.001.png" ∧
    (plainPath "content" = true ∧ plainSegment "launch" = true) ∧
    pathJoin [pathJoin ["content", "images", "talks"], "launch",
        "launch" ++ "." ++ "001" ++ ".png"] =
      "content" ++ "/images/talks/" ++ "launch" ++ "/" ++ "launch" ++ "." ++ "001" ++ ".png" :=
  ⟨⟨by decide,
      ((compile_image_precedence launchWorld "./content" "./talks" "launch.yaml" true
        launchResult 0 launchSlide rfl rfl).2.1 (by decide)).2⟩,
    (compile_image_precedence (worldOf launchTalk (fun _ => .found)) "content" "talks"
      "launch.yaml" false
      { launchResult with Draft := false, Slides := [some launchSlidePng] } 0 launchSlidePng
      rfl rfl).1 rfl,
    ⟨by decide, by decide⟩,
    ((compile_image_precedence (worldOf launchTalk (fun _ => .found)) "content" "talks"
      "launch.yaml" false
      { launchResult with Draft := false, Slides := [some launchSlidePng] } 0 launchSlidePng
      rfl rfl).2.2 (by decide) (by decide)).1⟩

/-- C6: in a Talk that Compile returns, every entry of Slides is a slide, the
Number of the slide at index `i`, read as a decimal numeral, is `i + 1`, and two
slides at different positions never have the same Number. -/
theorem compile_numbers_unique (w : World) (contentDir dir name : String) (draft : Bool)
    (t : Talk) (h : (Compile w contentDir dir name draft).outcome = .returns (.ok t)) :
    (∀ i, i < t.Slides.length → ∃ s, t.Slides[i]? = some (some s)) ∧
    (∀ (i : Nat) (s : Slide), t.Slides[i]? = some (some s) →
      readDecimal s.Number = some (i + 1)) ∧
    (∀ (i j : Nat) (s s' : Slide), t.Slides[i]? = some (some s) →
      t.Slides[j]? = some (some s') → i ≠ j →
      s.Number ≠ s'.Number) := by
  refine ⟨?_, ?_, ?_⟩
  · intro i hi
    obtain ⟨raw, talk0, _, _, _, _, hlen, hfill⟩ :=
      Compile_ok_slides w contentDir dir name draft h
    obtain ⟨s0, _, hcase⟩ := hfill i (by omega)
    rcases hcase with ⟨_, hout⟩ | ⟨_, _, hout⟩
    · exact ⟨_, hout⟩
    · exact ⟨_, hout⟩
  · intro i s hs
    obtain ⟨s0, hnum, _⟩ := Compile_ok_slide w contentDir dir name draft h hs
    rw [hnum]
    exact readDecimal_sprintf03d (i + 1)
  · intro i j s s' hs hs' hij heq
    obtain ⟨_, hnum, _⟩ := Compile_ok_slide w contentDir dir name draft h hs
    obtain ⟨_, hnum', _⟩ := Compile_ok_slide w contentDir dir name draft h hs'
    rw [hnum, hnum'] at heq
    have := sprintf03d_injective heq
    omega

/-- C6, at a concrete input: the slide of the talk compiled from `launch.yaml`
has a Number that reads as 1. -/
theorem compile_numbers_unique_witness :
    (Compile launchWorld "./content" "./talks" "launch.yaml" true).outcome =
      .returns (.ok launchResult) ∧
    launchResult.Slides[0]? = some (some launchSlide) ∧
    readDecimal launchSlide.Number = some (0 + 1) :=
  ⟨rfl, rfl,
    (compile_numbers_unique launchWorld "./content" "./talks" "launch.yaml" true launchResult
      rfl).2.1 0 launchSlide rfl⟩

/-- C9: the Draft of a Talk that Compile returns is the `draft` argument, so two
successful runs with the same argument return the same Draft, whatever the
worlds, directories and file names of the two runs. -/
theorem compile_draft (w : World) (contentDir dir name : String) (draft : Bool) (t : Talk)
    (h : (Compile w contentDir dir name draft).outcome = .returns (.ok t)) :
    t.Draft = draft ∧
    ∀ (w' : World) (contentDir' dir' name' : String) (t' : Talk),
      (Compile w' contentDir' dir' name' draft).outcome = .returns (.ok t') →
      t'.Draft = t.Draft := by
  obtain ⟨_, _, _, _, _, hdraft, _⟩ := Compile_ok_slides w contentDir dir name draft h
  refine ⟨hdraft, ?_⟩
  intro w' contentDir' dir' name' t' h'
  obtain ⟨_, _, _, _, _, hdraft', _⟩ := Compile_ok_slides w' contentDir' dir' name' draft h'
  rw [hdraft, hdraft']

/-- C9, at concrete inputs: `launch.yaml` compiled with `draft` set yields a Talk
whose Draft is set, and a talk compiled with `draft` unset one whose Draft is
unset. -/
theorem compile_draft_witness :
    ((Compile launchWorld "./content" "./talks" "launch.yaml" true).outcome =
        .returns (.ok launchResult) ∧
      launchResult.Draft = true) ∧
    ((Compile (worldOf plainTalk (fun _ => .notExist)) "content" "talks" "launch.yaml"
        false).outcome =
        .returns (.ok { plainTalk with Intro := "<p>Hello</p>", Slug := "launch" }) ∧
      ({ plainTalk with Intro := "<p>Hello</p>", Slug := "launch" } : Talk).Draft = false) :=
  ⟨⟨rfl,
      (compile_draft launchWorld "./content" "./talks" "launch.yaml" true launchResult rfl).1⟩,
    ⟨rfl,
      (compile_draft (worldOf plainTalk (fun _ => .notExist)) "content" "talks" "launch.yaml"
        false { plainTalk with Intro := "<p>Hello</p>", Slug := "launch" } rfl).1⟩⟩

/-- C7: when the file is read and deserialized and some required-field check is
violated, Compile hands no path to `os.Stat` and returns the error of the first
violated check in the order Event, rendered Intro, Location, Title, PublishedAt,
whatever the later checks would say; the message names the field and ends with
the file path `path.Join(dir, name)`, the path that was read, which is `dir/name`
letter for letter when `dir` is a path of plain elements and `name` a plain
element. -/
theorem compile_first_violation (w : World) (contentDir dir name : String) (draft : Bool)
    (raw : List UInt8) (talk0 : Talk)
    (hread : w.readFile (pathJoin [dir, name]) = .ok raw)
    (hyaml : w.yamlUnmarshal raw = .ok talk0)
    (hviol : talk0.Event = "" ∨ renderMarkdown w talk0.IntroRaw = "" ∨ talk0.Location = "" ∨
      talk0.Title = "" ∨ talk0.PublishedAt = none) :
    (Compile w contentDir dir name draft).statLog = [] ∧
    (talk0.Event = "" →
      (Compile w contentDir dir name draft).outcome =
        .returns (.error ("No event for talk: " ++ pathJoin [dir, name]))) ∧
    (talk0.Event ≠ "" → renderMarkdown w talk0.IntroRaw = "" →
      (Compile w contentDir dir name draft).outcome =
        .returns (.error ("No intro for talk: " ++ pathJoin [dir, name]))) ∧
    (talk0.Event ≠ "" → renderMarkdown w talk0.IntroRaw ≠ "" → talk0.Location = "" →
      (Compile w contentDir dir name draft).outcome =
        .returns (.error ("No location for talk: " ++ pathJoin [dir, name]))) ∧
    (talk0.Event ≠ "" → renderMarkdown w talk0.IntroRaw ≠ "" → talk0.Location ≠ "" →
      talk0.Title = "" →
      (Compile w contentDir dir name draft).outcome =
        .returns (.error ("No title for talk: " ++ pathJoin [dir, name]))) ∧
    (talk0.Event ≠ "" → renderMarkdown w talk0.IntroRaw ≠ "" → talk0.Location ≠ "" →
      talk0.Title ≠ "" → talk0.PublishedAt = none →
      (Compile w contentDir dir name draft).outcome =
        .returns (.error ("No publish date for talk: " ++ pathJoin [dir, name]))) ∧
    (plainPath dir = true → plainSegment name = true →
      pathJoin [dir, name] = dir ++ "/" ++ name) := by
  refine ⟨?_, ?_, ?_, ?_, ?_, ?_, ?_⟩
  · obtain ⟨err, herr⟩ := Compile_violation w contentDir dir name draft hread hyaml hviol
    rw [herr]
  · intro h1
    rw [Compile_noEvent w contentDir dir name draft hread hyaml h1]
  · intro h1 h2
    rw [Compile_noIntro w contentDir dir name draft hread hyaml h1 h2]
  · intro h1 h2 h3
    rw [Compile_noLocation w contentDir dir name draft hread hyaml h1 h2 h3]
  · intro h1 h2 h3 h4
    rw [Compile_noTitle w contentDir dir name draft hread hyaml h1 h2 h3 h4]
  · intro h1 h2 h3 h4 h5
    rw [Compile_noPublishedAt w contentDir dir name draft hread hyaml h1 h2 h3 h4 h5]
  · exact inPath_plain dir name

/-- C7, at concrete inputs: a talk without event, title and publication date is
refused for its missing event, with no existence check, and a talk whose only
fault is an intro that renders to nothing is refused for its intro. -/
theorem compile_first_violation_witness :
    ((untitledTalk.Event = "" ∧ untitledTalk.Title = "" ∧ untitledTalk.PublishedAt = none) ∧
      (Compile (worldOf untitledTalk (fun _ => .found)) "content" "./talks/" "launch.yaml"
        false).statLog = [] ∧
      (Compile (worldOf untitledTalk (fun _ => .found)) "content" "./talks/" "launch.yaml"
        false).outcome = .returns (.error "No event for talk: talks/launch.yaml")) ∧
    (Compile (worldOf { launchTalk with IntroRaw := "" } (fun _ => .found)) "content"
        "/srv/talks" "launch.yaml" false).outcome =
      .returns (.error ("No intro for talk: " ++ pathJoin ["/srv/talks", "launch.yaml"])) ∧
    (plainPath "/srv/talks" = true ∧ plainSegment "launch.yaml" = true) ∧
    pathJoin ["/srv/talks", "launch.yaml"] = "/srv/talks" ++ "/" ++ "launch.yaml" :=
  ⟨⟨⟨rfl, rfl, rfl⟩,
      (compile_first_violation (worldOf untitledTalk (fun _ => .found)) "content" "./talks/"
        "launch.yaml" false [] untitledTalk rfl rfl (Or.inl rfl)).1,
      (compile_first_violation (worldOf untitledTalk (fun _ => .found)) "content" "./talks/"
        "launch.yaml" false [] untitledTalk rfl rfl (Or.inl rfl)).2.1 rfl⟩,
    (compile_first_violation (worldOf { launchTalk with IntroRaw := "" } (fun _ => .found))
      "content" "/srv/talks" "launch.yaml" false [] { launchTalk with IntroRaw := "" } rfl rfl
      (Or.inr (Or.inl rfl))).2.2.1 (by decide) rfl,
    ⟨by decide, by decide⟩,
    (compile_first_violation (worldOf { launchTalk with IntroRaw := "" } (fun _ => .found))
      "content" "/srv/talks" "launch.yaml" false [] { launchTalk with IntroRaw := "" } rfl rfl
      (Or.inr (Or.inl rfl))).2.2.2.2.2.2 (by decide) (by decide)⟩

/-- C10: `fileExists` returns true when `os.Stat` succeeds, returns false when it
fails with a not-found error, and panics with the error on every other failure;
so a Compile one of whose existence checks meets such a failure panics with it,
returning neither a Talk nor an error. -/
theorem fileExists_escalates (w : World) (file : String) :
    (w.stat file = .found → fileExists w file = .returns true) ∧
    (w.stat file = .notExist → fileExists w file = .returns false) ∧
    (∀ err, w.stat file = .fault err → fileExists w file = .panics err) ∧
    (∀ (contentDir dir name : String) (draft : Bool) (err : String),
      file ∈ (Compile w contentDir dir name draft).statLog → w.stat file = .fault err →
      (Compile w contentDir dir name draft).outcome = .panics err) := by
  refine ⟨?_, ?_, ?_, ?_⟩
  · intro h
    simp [fileExists, h]
  · intro h
    simp [fileExists, h]
  · intro err h
    simp [fileExists, h]
  · intro contentDir dir name draft err hp he
    exact Compile_fault_panics w contentDir dir name draft file err hp he

/-- C10, at a concrete input: with the PNG candidate absent and a permission
fault on the JPG candidate, Compile panics with that fault. -/
theorem fileExists_escalates_witness :
    "content/images/talks/launch/launch.001.jpg" ∈
      (Compile (worldOf launchTalk deniedStat) "content" "talks" "launch.yaml" false).statLog ∧
    deniedStat "content/images/talks/launch/launch.001.jpg" = .fault "permission denied" ∧
    (Compile (worldOf launchTalk deniedStat) "content" "talks" "launch.yaml" false).outcome =
      .panics "permission denied" :=
  ⟨by decide, rfl,
    (fileExists_escalates (worldOf launchTalk deniedStat)
      "content/images/talks/launch/launch.001.jpg").2.2.2
      "content" "talks" "launch.yaml" false "permission denied" (by decide) rfl⟩

/-- C4, as amended: the Slug of a Talk that Compile returns is the file name with
every instance of `.yaml` removed (found from the left, non-overlapping); it is
the same for every successful run on that file name; for a name `base.yaml`
with no dot in `base` it is `base`, the name without its extension, and
`foo.yaml` yields `foo`. -/
theorem compile_slug (w : World) (contentDir dir name : String) (draft : Bool) (t : Talk)
    (h : (Compile w contentDir dir name draft).outcome = .returns (.ok t)) :
    t.Slug = stringsReplaceAll name ".yaml" "" ∧
    (∀ (w' : World) (contentDir' dir' : String) (draft' : Bool) (t' : Talk),
      (Compile w' contentDir' dir' name draft').outcome = .returns (.ok t') →
      t'.Slug = t.Slug) ∧
    (∀ base : String, '.' ∉ base.data → name = base ++ ".yaml" →
      t.Slug = base ∧ t.Slug = trimExtension name) ∧
    (name = "foo.yaml" → t.Slug = "foo") := by
  obtain ⟨_, _, _, _, hslug, _⟩ := Compile_ok_slides w contentDir dir name draft h
  refine ⟨hslug, ?_, ?_, ?_⟩
  · intro w' contentDir' dir' draft' t' h'
    obtain ⟨_, _, _, _, hslug', _⟩ := Compile_ok_slides w' contentDir' dir' name draft' h'
    rw [hslug, hslug']
  · intro base hbase hname
    rw [hslug, hname, stringsReplaceAll_yaml_suffix base hbase, trimExtension_yaml_suffix]
    exact ⟨rfl, rfl⟩
  · intro hname
    rw [hslug, hname]
    decide

/-- C4, at a concrete input: `launch.yaml` yields the Slug `launch`. -/
theorem compile_slug_witness :
    (Compile launchWorld "./content" "./talks" "launch.yaml" true).outcome =
      .returns (.ok launchResult) ∧
    launchResult.Slug = "launch" ∧ launchResult.Slug = trimExtension "launch.yaml" :=
  ⟨rfl,
    ((compile_slug launchWorld "./content" "./talks" "launch.yaml" true launchResult rfl).2.2.1
      "launch" (by decide) rfl)⟩

/-- C4 as stated fails: Compile succeeds on `foo.yml` with Slug `foo.yml`, the
extension still in place, and on `talk.yaml.yaml` with Slug `talk`, more than
the extension removed. -/
theorem compile_slug_counterexample :
    ((Compile (worldOf plainTalk (fun _ => .notExist)) "content" "talks" "foo.yml" false).outcome =
        .returns (.ok { plainTalk with Intro := "<p>Hello</p>", Slug := "foo.yml" }) ∧
      trimExtension "foo.yml" = "foo" ∧ "foo.yml" ≠ trimExtension "foo.yml") ∧
    ((Compile (worldOf plainTalk (fun _ => .notExist)) "content" "talks" "talk.yaml.yaml"
        false).outcome =
        .returns (.ok { plainTalk with Intro := "<p>Hello</p>", Slug := "talk" }) ∧
      trimExtension "talk.yaml.yaml" = "talk.yaml" ∧ "talk" ≠ trimExtension "talk.yaml.yaml") :=
  ⟨⟨rfl, by decide, by decide⟩, ⟨rfl, by decide, by decide⟩⟩

/-- C5, as amended: a Talk that Compile returns has as many slides as the
deserialized talk, in the same order, and the Number of the slide at index `i`
is the decimal numeral of `i + 1` with zeros in front up to a width of three:
all its characters are decimal digits, its value is `i + 1`, it has exactly
three characters when `i + 1` is at most 999 and at least four from 1000 on. -/
theorem compile_slide_numbers (w : World) (contentDir dir name : String) (draft : Bool)
    (raw : List UInt8) (talk0 t : Talk)
    (hread : w.readFile (pathJoin [dir, name]) = .ok raw)
    (hyaml : w.yamlUnmarshal raw = .ok talk0)
    (h : (Compile w contentDir dir name draft).outcome = .returns (.ok t)) :
    t.Slides.length = talk0.Slides.length ∧
    ∀ i, i < talk0.Slides.length →
      ∃ s0 s : Slide, talk0.Slides[i]? = some (some s0) ∧ t.Slides[i]? = some (some s) ∧
        s.CaptionRaw = s0.CaptionRaw ∧
        s.Number = sprintf03d (i + 1) ∧
        (∀ c ∈ s.Number.data, c.isDigit = true) ∧
        readDecimal s.Number = some (i + 1) ∧
        (i + 1 ≤ 999 → s.Number.length = 3) ∧
        (1000 ≤ i + 1 → 4 ≤ s.Number.length) := by
  obtain ⟨raw1, talk1, hread1, hyaml1, _, _, hlen, hfill⟩ :=
    Compile_ok_slides w contentDir dir name draft h
  rw [hread] at hread1
  cases hread1
  rw [hyaml] at hyaml1
  cases hyaml1
  refine ⟨hlen, fun i hi => ?_⟩
  obtain ⟨s0, hs0, hcase⟩ := hfill i hi
  rw [Nat.zero_add] at hcase
  have hnum : ∀ image, (filledSlide w (stringsReplaceAll name ".yaml" "") (sprintf03d (i + 1))
      image s0).Number = sprintf03d (i + 1) := fun _ => rfl
  rcases hcase with ⟨_, hout⟩ | ⟨_, _, hout⟩
  · refine ⟨s0, _, hs0, hout, rfl, rfl, ?_, ?_, ?_, ?_⟩
    · rw [hnum]; exact sprintf03d_allDigits (i + 1)
    · rw [hnum]; exact readDecimal_sprintf03d (i + 1)
    · intro hle; rw [hnum]; exact sprintf03d_length_of_lt (by omega)
    · intro hge; rw [hnum]; exact sprintf03d_length_of_ge hge
  · refine ⟨s0, _, hs0, hout, rfl, rfl, ?_, ?_, ?_, ?_⟩
    · rw [hnum]; exact sprintf03d_allDigits (i + 1)
    · rw [hnum]; exact readDecimal_sprintf03d (i + 1)
    · intro hle; rw [hnum]; exact sprintf03d_length_of_lt (by omega)
    · intro hge; rw [hnum]; exact sprintf03d_length_of_ge hge

/-- C5, at a concrete input: the talk compiled from `launch.yaml` keeps its one
slide, whose Number is `001`. -/
theorem compile_slide_numbers_witness :
    (Compile launchWorld "./content" "./talks" "launch.yaml" true).outcome =
      .returns (.ok launchResult) ∧
    launchResult.Slides.length = launchTalk.Slides.length ∧
    ∃ s0 s : Slide, launchTalk.Slides[0]? = some (some s0) ∧
      launchResult.Slides[0]? = some (some s) ∧ s.CaptionRaw = s0.CaptionRaw ∧
      s.Number = sprintf03d (0 + 1) ∧ (∀ c ∈ s.Number.data, c.isDigit = true) ∧
      readDecimal s.Number = some (0 + 1) ∧ (0 + 1 ≤ 999 → s.Number.length = 3) ∧
      (1000 ≤ 0 + 1 → 4 ≤ s.Number.length) :=
  ⟨rfl,
    (compile_slide_numbers launchWorld "./content" "./talks" "launch.yaml" true [] launchTalk
      launchResult rfl rfl rfl).1,
    (compile_slide_numbers launchWorld "./content" "./talks" "launch.yaml" true [] launchTalk
      launchResult rfl rfl rfl).2 0 (by decide)⟩

/-- C5 as stated fails: a talk of a thousand slides whose images are all on disk
compiles, and the Number of its last slide, at index 999, is `1000`, four
characters long. -/
theorem compile_slide_numbers_counterexample :
    thousandTalk.Slides.length = 1000 ∧
    ∃ t s, (Compile (worldOf thousandTalk (fun _ => .found)) "content" "talks" "deck.yaml"
        false).outcome = .returns (.ok t) ∧
      t.Slides[999]? = some (some s) ∧ s.Number = "1000" ∧ s.Number.length = 4 := by
  have hslides : thousandTalk.Slides = List.replicate 1000
      (some { Caption := "", CaptionRaw := "Slide", ImagePath := "", Number := "" }) := rfl
  refine ⟨by rw [hslides, List.length_replicate], ?_⟩
  have hrun : ∃ t, (Compile (worldOf thousandTalk (fun _ => .found)) "content" "talks"
      "deck.yaml" false).outcome = .returns (.ok t) := by
    apply Compile_ok_of_images (worldOf thousandTalk (fun _ => .found)) "content" "talks"
      "deck.yaml" false [] thousandTalk rfl rfl (by decide) (by decide)
      (by decide) (by decide) (by decide)
    intro k hk
    rw [hslides, List.length_replicate] at hk
    refine ⟨⟨{ Caption := "", CaptionRaw := "Slide", ImagePath := "", Number := "" }, ?_⟩,
      Or.inl rfl⟩
    rw [hslides, List.getElem?_replicate, if_pos hk]
  obtain ⟨t, ht⟩ := hrun
  obtain ⟨_, hpresent⟩ := Compile_ok_present (worldOf thousandTalk (fun _ => .found)) "content"
    "talks" "deck.yaml" false [] thousandTalk rfl rfl ht
  obtain ⟨s, hs⟩ := hpresent 999 (by rw [hslides, List.length_replicate]; norm_num)
  obtain ⟨_, hnum, _⟩ := Compile_ok_slide (worldOf thousandTalk (fun _ => .found)) "content"
    "talks" "deck.yaml" false ht hs
  have h1000 : sprintf03d (999 + 1) = "1000" := by decide
  rw [h1000] at hnum
  exact ⟨t, s, ht, hs, hnum, by rw [hnum]; decide⟩

/-- C8, as amended: when the file is read and deserialized, Event, the rendered
Intro, Location and Title are non-empty, PublishedAt is present, and every
slide entry is a slide whose PNG candidate is found, or reported absent with the
JPG candidate found, Compile returns a Talk with no error; with no slide at all
the condition on the slides holds of itself. -/
theorem compile_succeeds (w : World) (contentDir dir name : String) (draft : Bool)
    (raw : List UInt8) (talk0 : Talk)
    (hread : w.readFile (pathJoin [dir, name]) = .ok raw)
    (hyaml : w.yamlUnmarshal raw = .ok talk0)
    (hEvent : talk0.Event ≠ "") (hIntro : renderMarkdown w talk0.IntroRaw ≠ "")
    (hLocation : talk0.Location ≠ "") (hTitle : talk0.Title ≠ "")
    (hPublished : talk0.PublishedAt ≠ none)
    (himages : ∀ k, k < talk0.Slides.length →
      (∃ s, talk0.Slides[k]? = some (some s)) ∧
      (w.stat (pathJoin [pathJoin [contentDir, "images", "talks"],
          stringsReplaceAll name ".yaml" "",
          stringsReplaceAll name ".yaml" "" ++ "." ++ sprintf03d (k + 1) ++ ".png"]) = .found ∨
        (w.stat (pathJoin [pathJoin [contentDir, "images", "talks"],
            stringsReplaceAll name ".yaml" "",
            stringsReplaceAll name ".yaml" "" ++ "." ++ sprintf03d (k + 1) ++ ".png"])
            = .notExist ∧
          w.stat (pathJoin [pathJoin [contentDir, "images", "talks"],
            stringsReplaceAll name ".yaml" "",
            stringsReplaceAll name ".yaml" "" ++ "." ++ sprintf03d (k + 1) ++ ".jpg"])
            = .found))) :
    ∃ t, (Compile w contentDir dir name draft).outcome = .returns (.ok t) := by
  apply Compile_ok_of_images w contentDir dir name draft raw talk0 hread hyaml hEvent hIntro
    hLocation hTitle hPublished
  intro k hk
  have := himages k hk
  unfold ImageAt
  rw [Nat.zero_add]
  exact this

/-- C8, at concrete inputs: a talk with every required field and no slide
compiles on an empty image directory, and `launch.yaml` compiles with its one
JPG image. -/
theorem compile_succeeds_witness :
    (∃ t, (Compile (worldOf plainTalk (fun _ => .notExist)) "content" "talks" "launch.yaml"
      false).outcome = .returns (.ok t)) ∧
    ∃ t, (Compile launchWorld "./content" "./talks" "launch.yaml" true).outcome =
      .returns (.ok t) :=
  ⟨compile_succeeds (worldOf plainTalk (fun _ => .notExist)) "content" "talks" "launch.yaml"
      false [] plainTalk rfl rfl (by decide) (by decide) (by decide) (by decide) (by decide)
      (fun k hk => absurd hk (Nat.not_lt_zero k)),
    compile_succeeds launchWorld "./content" "./talks" "launch.yaml" true [] launchTalk rfl rfl
      (by decide) (by decide) (by decide) (by decide) (by decide)
      (fun k hk => by
        have hk0 : k = 0 := Nat.lt_one_iff.mp hk
        subst hk0
        exact ⟨⟨_, rfl⟩, Or.inr ⟨by decide, by decide⟩⟩)⟩

/-- C8 as stated fails: `launch.yaml` is read and deserialized with every required
field present and one slide, no image is on disk, and Compile returns the
missing-image error instead of a Talk. -/
theorem compile_succeeds_counterexample :
    (launchTalk.Event ≠ "" ∧ launchTalk.IntroRaw ≠ "" ∧
      renderMarkdown (worldOf launchTalk (fun _ => .notExist)) launchTalk.IntroRaw ≠ "" ∧
      launchTalk.Location ≠ "" ∧ launchTalk.Title ≠ "" ∧ launchTalk.PublishedAt ≠ none ∧
      launchTalk.Slides.length = 1) ∧
    (Compile (worldOf launchTalk (fun _ => .notExist)) "content" "talks" "launch.yaml"
      false).outcome =
      .returns (.error ("Couldn't find any image asset for slide launch.001.png / " ++
        "launch.001.jpg at content/images/talks/launch")) :=
  ⟨⟨by decide, by decide, by decide, by decide, by decide, by decide, rfl⟩, rfl⟩

/-- C3, at the input on which the code fails it: the file is read and
deserialized, every required field is present, the only slide entry is null
and neither candidate of slide 1 is on disk; Compile hands no path to `os.Stat`
and panics on the nil slide instead of returning the missing-image error. -/
theorem compile_null_slide_panics :
    (nullSlideTalk.Event ≠ "" ∧ nullSlideTalk.Location ≠ "" ∧ nullSlideTalk.Title ≠ "" ∧
      nullSlideTalk.PublishedAt ≠ none ∧ nullSlideTalk.Slides = [none]) ∧
    (Compile (worldOf nullSlideTalk (fun _ => .notExist)) "content" "talks" "launch.yaml"
      false).outcome = .panics nilDereference ∧
    (Compile (worldOf nullSlideTalk (fun _ => .notExist)) "content" "talks" "launch.yaml"
      false).statLog = [] :=
  ⟨⟨by decide, by decide, by decide, by decide, rfl⟩, rfl, rfl⟩

end Talks
